import Mathlib

/-!
Verification of the tweakio-sdk persistence core: a shallow embedding of the
encryption wrappers (src/Encryption), the profile lifecycle manager
(src/BrowserManager/profile_manager.py, src/directory.py) and the batched
SQLite storage engine (src/StorageDB/sqlite_db.py), together with theorems
settling the specification claims about them.
-/

namespace Tweakio

/-! ## Unicode / UTF-8 model

Python `str` values are sequences of Unicode scalar values; `str.encode` and
`bytes.decode` with the strict utf-8 codec are modelled by `utf8Encode` and
`utf8Decode` over code points represented as `Nat`.
-/

/-- A Unicode scalar value: any code point except the surrogate range. -/
def ScalarValue (c : Nat) : Prop :=
  c < 0xD800 ∨ (0xE000 ≤ c ∧ c < 0x110000)

instance (c : Nat) : Decidable (ScalarValue c) := by
  unfold ScalarValue; infer_instance

/-- UTF-8 encoding of a single scalar value (1 to 4 bytes). -/
def utf8EncodeChar (c : Nat) : List Nat :=
  if c < 0x80 then [c]
  else if c < 0x800 then [0xC0 + c / 64, 0x80 + c % 64]
  else if c < 0x10000 then [0xE0 + c / 4096, 0x80 + c / 64 % 64, 0x80 + c % 64]
  else [0xF0 + c / 262144, 0x80 + c / 4096 % 64, 0x80 + c / 64 % 64, 0x80 + c % 64]

/-- UTF-8 encoding of a string of scalar values. -/
def utf8Encode (s : List Nat) : List Nat :=
  (s.map utf8EncodeChar).flatten

/-- One step of the strict UTF-8 decoder: reads a single encoded scalar value
from the front of the byte list and returns it with the remaining bytes.
Rejects stray continuation bytes, overlong forms, surrogates and code points
above 0x10FFFF, as the Python strict codec does. -/
def utf8DecodeChar1 : List Nat → Option (Nat × List Nat)
  | [] => none
  | b0 :: rest =>
    if b0 < 0x80 then some (b0, rest)
    else if b0 < 0xC2 then none
    else if b0 < 0xE0 then
      match rest with
      | b1 :: rest2 =>
        if b1 / 64 = 2 then some ((b0 - 0xC0) * 64 + (b1 - 0x80), rest2) else none
      | [] => none
    else if b0 < 0xF0 then
      match rest with
      | b1 :: b2 :: rest3 =>
        if b1 / 64 = 2 ∧ b2 / 64 = 2 then
          if (b0 - 0xE0) * 4096 + (b1 - 0x80) * 64 + (b2 - 0x80) < 0x800 ∨
             (0xD800 ≤ (b0 - 0xE0) * 4096 + (b1 - 0x80) * 64 + (b2 - 0x80) ∧
              (b0 - 0xE0) * 4096 + (b1 - 0x80) * 64 + (b2 - 0x80) < 0xE000) then none
          else some ((b0 - 0xE0) * 4096 + (b1 - 0x80) * 64 + (b2 - 0x80), rest3)
        else none
      | _ => none
    else if b0 < 0xF5 then
      match rest with
      | b1 :: b2 :: b3 :: rest4 =>
        if b1 / 64 = 2 ∧ b2 / 64 = 2 ∧ b3 / 64 = 2 then
          if (b0 - 0xF0) * 262144 + (b1 - 0x80) * 4096 + (b2 - 0x80) * 64 + (b3 - 0x80)
               < 0x10000 ∨
             0x110000 ≤
               (b0 - 0xF0) * 262144 + (b1 - 0x80) * 4096 + (b2 - 0x80) * 64 + (b3 - 0x80)
          then none
          else some ((b0 - 0xF0) * 262144 + (b1 - 0x80) * 4096 + (b2 - 0x80) * 64 +
            (b3 - 0x80), rest4)
        else none
      | _ => none
    else none

theorem utf8DecodeChar1_length (l : List Nat) (c : Nat) (rem : List Nat)
    (h : utf8DecodeChar1 l = some (c, rem)) : rem.length < l.length := by
  match l with
  | [] => simp [utf8DecodeChar1] at h
  | b0 :: rest =>
    simp only [utf8DecodeChar1] at h
    repeat' (first
      | (split at h)
      | (simp only [Option.some.injEq, Prod.mk.injEq] at h))
    all_goals first
      | exact Option.noConfusion h
      | (obtain ⟨h1, h2⟩ := h; subst h2; simp only [List.length_cons]; omega)

/-- Strict UTF-8 decoder for a whole byte string. -/
def utf8Decode (l : List Nat) : Option (List Nat) :=
  match h : utf8DecodeChar1 l with
  | none => if l.isEmpty then some [] else none
  | some (c, rem) => (utf8Decode rem).map (fun s => c :: s)
termination_by l.length
decreasing_by exact utf8DecodeChar1_length l c rem h

theorem utf8EncodeChar_ne_nil (c : Nat) : utf8EncodeChar c ≠ [] := by
  unfold utf8EncodeChar
  split <;> simp_all
  split <;> simp_all
  split <;> simp_all

theorem utf8Encode_cons (c : Nat) (s : List Nat) :
    utf8Encode (c :: s) = utf8EncodeChar c ++ utf8Encode s := by
  simp [utf8Encode]

theorem utf8Encode_eq_nil_iff (s : List Nat) : utf8Encode s = [] ↔ s = [] := by
  cases s with
  | nil => simp [utf8Encode]
  | cons c s =>
    simp only [utf8Encode_cons]
    constructor
    · intro h
      exact absurd (List.append_eq_nil.mp h).1 (utf8EncodeChar_ne_nil c)
    · intro h; exact absurd h (by simp)

theorem utf8DecodeChar1_encodeChar (c : Nat) (h : ScalarValue c) (rest : List Nat) :
    utf8DecodeChar1 (utf8EncodeChar c ++ rest) = some (c, rest) := by
  rcases Nat.lt_or_ge c 0x80 with h1 | h1
  · simp only [utf8EncodeChar, if_pos h1, List.cons_append, List.nil_append]
    simp only [utf8DecodeChar1, if_pos h1]
  · rcases Nat.lt_or_ge c 0x800 with h2 | h2
    · have g0 : ¬ c < 0x80 := by omega
      simp only [utf8EncodeChar, if_neg g0, if_pos h2, List.cons_append, List.nil_append]
      have g1 : ¬ (0xC0 + c / 64 < 0x80) := by omega
      have g2 : ¬ (0xC0 + c / 64 < 0xC2) := by omega
      have g3 : 0xC0 + c / 64 < 0xE0 := by omega
      have g4 : (0x80 + c % 64) / 64 = 2 := by omega
      simp only [utf8DecodeChar1, if_neg g1, if_neg g2, if_pos g3, if_pos g4]
      have gv : (0xC0 + c / 64 - 0xC0) * 64 + (0x80 + c % 64 - 0x80) = c := by omega
      rw [gv]
    · rcases Nat.lt_or_ge c 0x10000 with h3 | h3
      · have g0 : ¬ c < 0x80 := by omega
        have g0b : ¬ c < 0x800 := by omega
        simp only [utf8EncodeChar, if_neg g0, if_neg g0b, if_pos h3, List.cons_append,
          List.nil_append]
        have g1 : ¬ (0xE0 + c / 4096 < 0x80) := by omega
        have g2 : ¬ (0xE0 + c / 4096 < 0xC2) := by omega
        have g3 : ¬ (0xE0 + c / 4096 < 0xE0) := by omega
        have g4 : 0xE0 + c / 4096 < 0xF0 := by omega
        have g5 : (0x80 + c / 64 % 64) / 64 = 2 ∧ (0x80 + c % 64) / 64 = 2 := by omega
        simp only [utf8DecodeChar1, if_neg g1, if_neg g2, if_neg g3, if_pos g4, if_pos g5]
        have gv : (0xE0 + c / 4096 - 0xE0) * 4096 + (0x80 + c / 64 % 64 - 0x80) * 64 +
            (0x80 + c % 64 - 0x80) = c := by omega
        rw [gv]
        have g6 : ¬ (c < 0x800 ∨ (0xD800 ≤ c ∧ c < 0xE000)) := by
          rcases h with h | h <;> omega
        rw [if_neg g6]
      · have g0 : ¬ c < 0x80 := by omega
        have g0b : ¬ c < 0x800 := by omega
        have g0c : ¬ c < 0x10000 := by omega
        have hc : c < 0x110000 := by rcases h with h | h <;> omega
        simp only [utf8EncodeChar, if_neg g0, if_neg g0b, if_neg g0c, List.cons_append,
          List.nil_append]
        have g1 : ¬ (0xF0 + c / 262144 < 0x80) := by omega
        have g2 : ¬ (0xF0 + c / 262144 < 0xC2) := by omega
        have g3 : ¬ (0xF0 + c / 262144 < 0xE0) := by omega
        have g4 : ¬ (0xF0 + c / 262144 < 0xF0) := by omega
        have g4b : 0xF0 + c / 262144 < 0xF5 := by omega
        have g5 : (0x80 + c / 4096 % 64) / 64 = 2 ∧ (0x80 + c / 64 % 64) / 64 = 2 ∧
            (0x80 + c % 64) / 64 = 2 := by omega
        simp only [utf8DecodeChar1, if_neg g1, if_neg g2, if_neg g3, if_neg g4, if_pos g4b,
          if_pos g5]
        have gv : (0xF0 + c / 262144 - 0xF0) * 262144 + (0x80 + c / 4096 % 64 - 0x80) * 4096 +
            (0x80 + c / 64 % 64 - 0x80) * 64 + (0x80 + c % 64 - 0x80) = c := by omega
        rw [gv]
        have g6 : ¬ (c < 0x10000 ∨ 0x110000 ≤ c) := by omega
        rw [if_neg g6]

theorem utf8Decode_utf8Encode (s : List Nat) (h : ∀ c ∈ s, ScalarValue c) :
    utf8Decode (utf8Encode s) = some s := by
  induction s with
  | nil => simp [utf8Encode, utf8Decode, utf8DecodeChar1]
  | cons c s ih =>
    rw [utf8Encode_cons]
    unfold utf8Decode
    rw [utf8DecodeChar1_encodeChar c (h c (by simp)) _]
    simp only []
    rw [ih (fun d hd => h d (by simp [hd]))]
    rfl

/-! ## AES-GCM model

The repository encrypts with `cryptography.hazmat.primitives.ciphers.aead.AESGCM`.
GCM (NIST SP 800-38D) is modelled generically over the underlying block
function `E : key → 16-byte block → 16-byte block`: counter-mode keystream,
GHASH over GF(2^128), tag appended to the ciphertext. Bytes are `Nat` values
below 256; keys, nonces and ciphertexts are byte lists.
-/

/-- A 128-bit block cipher forward function: key and 16-byte block to
16-byte block. -/
abbrev BlockFn := List Nat → List Nat → List Nat

/-- Pointwise xor of two byte strings (length of the shorter). -/
def xorBytes (a b : List Nat) : List Nat :=
  List.zipWith Nat.xor a b

/-- Big-endian bytes to natural number. -/
def beBytesToNat (l : List Nat) : Nat :=
  l.foldl (fun acc b => acc * 256 + b) 0

/-- Natural number to `len` big-endian bytes (truncating above 2^(8*len)). -/
def natToBeBytes : Nat → Nat → List Nat
  | 0, _ => []
  | l + 1, n => natToBeBytes l (n / 256) ++ [n % 256]

/-- The GCM `inc32` function: add one to the last 32 bits of a block. -/
def inc32 (block : List Nat) : List Nat :=
  block.take 12 ++ natToBeBytes 4 ((beBytesToNat (block.drop 12) + 1) % 2 ^ 32)

/-- Counter-mode block sequence `E(K, ICB), E(K, inc32 ICB), ...`. -/
def ctrBlocks (E : BlockFn) (key : List Nat) : List Nat → Nat → List Nat
  | _, 0 => []
  | icb, n + 1 => E key icb ++ ctrBlocks E key (inc32 icb) n

/-- GCM keystream for a 12-byte nonce: counter blocks starting at
`inc32 (nonce ++ 0x00000001)`, truncated to `len` bytes. -/
def keystream (E : BlockFn) (key nonce : List Nat) (len : Nat) : List Nat :=
  (ctrBlocks E key (inc32 (nonce ++ [0, 0, 0, 1])) ((len + 15) / 16)).take len

/-- The GHASH reduction constant `R = 0xE1 << 120`. -/
def R128 : Nat := 0xE1 * 2 ^ 120

/-- One hundred twenty eight shift-and-xor steps of carry-less multiplication
in GF(2^128) modulo the GHASH polynomial. -/
def gf128MulAux : Nat → Nat → Nat → Nat → Nat
  | 0, _, z, _ => z
  | n + 1, x, z, v =>
    gf128MulAux n (x * 2 % 2 ^ 128)
      (if Nat.testBit x 127 then Nat.xor z v else z)
      (if v % 2 = 1 then Nat.xor (v / 2) R128 else v / 2)

/-- Multiplication in GF(2^128) as used by GHASH. -/
def gf128Mul (x y : Nat) : Nat := gf128MulAux 128 x 0 y

/-- Zero-pad a byte string on the right to a multiple of 16 bytes. -/
def pad16 (l : List Nat) : List Nat :=
  l ++ List.replicate ((16 - l.length % 16) % 16) 0

/-- GHASH: fold `Y := (Y xor X_i) * H` over the 16-byte blocks of the input. -/
def ghashAux (H : Nat) : Nat → List Nat → Nat
  | y, [] => y
  | y, b :: rest =>
    ghashAux H (gf128Mul (Nat.xor y (beBytesToNat ((b :: rest).take 16))) H)
      ((b :: rest).drop 16)
termination_by _ l => l.length
decreasing_by simp [List.drop]; omega

/-- The GCM authentication tag over associated data and ciphertext. -/
def gcmTag (E : BlockFn) (key nonce aad c : List Nat) : List Nat :=
  xorBytes (E key (nonce ++ [0, 0, 0, 1]))
    (natToBeBytes 16
      (ghashAux (beBytesToNat (E key (List.replicate 16 0))) 0
        (pad16 aad ++ pad16 c ++ natToBeBytes 8 (8 * aad.length) ++
          natToBeBytes 8 (8 * c.length))))

/-- `AESGCM.encrypt`: ciphertext is plaintext xor keystream, with the
authentication tag appended. -/
def gcmEncrypt (E : BlockFn) (key nonce pt aad : List Nat) : List Nat :=
  xorBytes pt (keystream E key nonce pt.length) ++
    gcmTag E key nonce aad (xorBytes pt (keystream E key nonce pt.length))

/-- `AESGCM.decrypt`: split off the 16-byte tag, recompute it over the
associated data and ciphertext body, and return the xor-decrypted plaintext
only when the tags agree. -/
def gcmDecrypt (E : BlockFn) (key nonce ct aad : List Nat) : Option (List Nat) :=
  if ct.length < 16 then none
  else if gcmTag E key nonce aad (ct.take (ct.length - 16)) = ct.drop (ct.length - 16) then
    some (xorBytes (ct.take (ct.length - 16))
      (keystream E key nonce (ct.take (ct.length - 16)).length))
  else none

theorem natToBeBytes_length (l n : Nat) : (natToBeBytes l n).length = l := by
  induction l generalizing n with
  | zero => simp [natToBeBytes]
  | succ l ih => simp [natToBeBytes, ih]

theorem xorBytes_length (a b : List Nat) :
    (xorBytes a b).length = min a.length b.length := by
  simp [xorBytes]

theorem ctrBlocks_length (E : BlockFn) (hE : ∀ k b, (E k b).length = 16)
    (key : List Nat) (icb : List Nat) (n : Nat) :
    (ctrBlocks E key icb n).length = 16 * n := by
  induction n generalizing icb with
  | zero => simp [ctrBlocks]
  | succ n ih => simp [ctrBlocks, hE, ih]; ring

theorem keystream_length (E : BlockFn) (hE : ∀ k b, (E k b).length = 16)
    (key nonce : List Nat) (len : Nat) : (keystream E key nonce len).length = len := by
  simp [keystream, ctrBlocks_length E hE]
  omega

theorem gcmTag_length (E : BlockFn) (hE : ∀ k b, (E k b).length = 16)
    (key nonce aad c : List Nat) : (gcmTag E key nonce aad c).length = 16 := by
  simp [gcmTag, xorBytes_length, natToBeBytes_length, hE]

theorem xorBytes_xorBytes_cancel (pt ks : List Nat) (h : pt.length ≤ ks.length) :
    xorBytes (xorBytes pt ks) ks = pt := by
  induction pt generalizing ks with
  | nil => simp [xorBytes]
  | cons a pt ih =>
    cases ks with
    | nil => simp at h
    | cons k ks =>
      simp only [xorBytes, List.zipWith_cons_cons]
      rw [show Nat.xor (Nat.xor a k) k = a by
        show (a ^^^ k) ^^^ k = a
        rw [Nat.xor_assoc, Nat.xor_self, Nat.xor_zero]]
      have := ih ks (by simpa using h)
      simp only [xorBytes] at this
      simp [this]

theorem take_append_self {α : Type} (a b : List α) : (a ++ b).take a.length = a := by
  simp

theorem drop_append_self {α : Type} (a b : List α) : (a ++ b).drop a.length = b := by
  simp

/-- GCM round trip: decrypting an encryption with the same key, nonce and
associated data recovers the plaintext, for any block function with 16-byte
output blocks. -/
theorem gcmDecrypt_gcmEncrypt (E : BlockFn) (hE : ∀ k b, (E k b).length = 16)
    (key nonce pt aad : List Nat) :
    gcmDecrypt E key nonce (gcmEncrypt E key nonce pt aad) aad = some pt := by
  rw [gcmEncrypt]
  set ks := keystream E key nonce pt.length with hks_def
  set c := xorBytes pt ks with hc_def
  set tg := gcmTag E key nonce aad c with htg_def
  have hks : ks.length = pt.length := keystream_length E hE key nonce pt.length
  have hc : c.length = pt.length := by
    rw [hc_def, xorBytes_length, hks]; omega
  have htg : tg.length = 16 := by
    rw [htg_def]; exact gcmTag_length E hE key nonce aad c
  have hlen : (c ++ tg).length = pt.length + 16 := by simp [hc, htg]
  rw [gcmDecrypt, if_neg (by omega)]
  have hsub : (c ++ tg).length - 16 = c.length := by omega
  rw [hsub, take_append_self, drop_append_self, if_pos htg_def.symm, hc, ← hks_def,
    hc_def, xorBytes_xorBytes_cancel pt ks (by omega)]

/-! ## Encryption wrappers

`MessageEncryptor` (src/Encryption/encryptor.py) and `MessageDecryptor`
(src/Encryption/decryptor.py). Python strings are lists of Unicode scalar
values; `os.urandom(12)` is modelled by an explicit nonce argument; the
`cryptography` library treats `associated_data = None` as the empty byte
string.
-/

/-- Python exceptions raised by the encryption modules. -/
inductive PyErr where
  | valueError (msg : String)
  | invalidTag
  | unicodeDecodeError
deriving DecidableEq, Repr

structure MessageEncryptor where
  key : List Nat
deriving Repr

/-- `MessageEncryptor.__init__`: rejects keys that are not 32 bytes. -/
def MessageEncryptor.init (key : List Nat) : Except PyErr MessageEncryptor :=
  if key.length ≠ 32 then Except.error (PyErr.valueError "Key must be 32 bytes")
  else Except.ok ⟨key⟩

/-- `MessageEncryptor.encrypt` on a `str` plaintext: utf-8 encode, reject the
empty plaintext, draw a fresh 12-byte nonce (the `nonce` argument stands for
`os.urandom(12)`), and AES-GCM encrypt. -/
def MessageEncryptor.encrypt (E : BlockFn) (nonce : List Nat) (self : MessageEncryptor)
    (plaintext : List Nat) (associated_data : Option (List Nat)) :
    Except PyErr (List Nat × List Nat) :=
  if (utf8Encode plaintext).isEmpty then
    Except.error (PyErr.valueError "Plaintext cannot be empty")
  else
    Except.ok (nonce,
      gcmEncrypt E self.key nonce (utf8Encode plaintext) (associated_data.getD []))

structure MessageDecryptor where
  key : List Nat
deriving Repr

/-- `MessageDecryptor.__init__`: rejects keys that are not 32 bytes. -/
def MessageDecryptor.init (key : List Nat) : Except PyErr MessageDecryptor :=
  if key.length ≠ 32 then Except.error (PyErr.valueError "Key must be 32 bytes")
  else Except.ok ⟨key⟩

/-- `MessageDecryptor.decrypt`: check the nonce is 12 bytes and the ciphertext
nonempty, AES-GCM decrypt (InvalidTag on authentication failure), and decode
the plaintext as utf-8. -/
def MessageDecryptor.decrypt (E : BlockFn) (self : MessageDecryptor)
    (nonce ciphertext : List Nat) (associated_data : Option (List Nat)) :
    Except PyErr (List Nat) :=
  if nonce.length ≠ 12 then Except.error (PyErr.valueError "Nonce must be 12 bytes")
  else if ciphertext.isEmpty then Except.error (PyErr.valueError "Ciphertext cannot be empty")
  else
    match gcmDecrypt E self.key nonce ciphertext (associated_data.getD []) with
    | none => Except.error PyErr.invalidTag
    | some pt =>
      match utf8Decode pt with
      | some s => Except.ok s
      | none => Except.error PyErr.unicodeDecodeError

theorem gcmEncrypt_length (E : BlockFn) (hE : ∀ k b, (E k b).length = 16)
    (key nonce pt aad : List Nat) :
    (gcmEncrypt E key nonce pt aad).length = pt.length + 16 := by
  have hks : (keystream E key nonce pt.length).length = pt.length :=
    keystream_length E hE key nonce pt.length
  have hc : (xorBytes pt (keystream E key nonce pt.length)).length = pt.length := by
    rw [xorBytes_length, hks]; omega
  simp [gcmEncrypt, hc, gcmTag_length E hE]

/-- Claim C1: for every 32-byte key, every non-empty plaintext string, and
every choice of associated data, decrypting the (nonce, ciphertext) pair
produced by encrypt with the same key and the same associated data returns
the original plaintext. Stated generically over the AES block function. -/
theorem C1_encrypt_decrypt_roundtrip
    (E : BlockFn) (hE : ∀ k b, (E k b).length = 16)
    (key nonce plaintext : List Nat) (aad : Option (List Nat))
    (hkey : key.length = 32) (hnonce : nonce.length = 12)
    (hpt : plaintext ≠ []) (hscalar : ∀ c ∈ plaintext, ScalarValue c) :
    ∃ enc dec ct,
      MessageEncryptor.init key = Except.ok enc ∧
      MessageDecryptor.init key = Except.ok dec ∧
      MessageEncryptor.encrypt E nonce enc plaintext aad = Except.ok (nonce, ct) ∧
      MessageDecryptor.decrypt E dec nonce ct aad = Except.ok plaintext := by
  refine ⟨⟨key⟩, ⟨key⟩, gcmEncrypt E key nonce (utf8Encode plaintext) (aad.getD []),
    ?_, ?_, ?_, ?_⟩
  · simp [MessageEncryptor.init, hkey]
  · simp [MessageDecryptor.init, hkey]
  · rw [MessageEncryptor.encrypt, if_neg]
    simp only [List.isEmpty_iff, utf8Encode_eq_nil_iff]
    exact hpt
  · rw [MessageDecryptor.decrypt, if_neg (by omega), if_neg]
    · rw [gcmDecrypt_gcmEncrypt E hE]
      simp only [utf8Decode_utf8Encode plaintext hscalar]
    · have := gcmEncrypt_length E hE key nonce (utf8Encode plaintext) (aad.getD [])
      simp only [List.isEmpty_iff]
      intro hnil
      rw [hnil] at this
      simp at this

/-- Witness for C1 at a concrete block function, key, nonce and plaintext. -/
theorem C1_encrypt_decrypt_roundtrip_witness :
    ∃ enc dec ct,
      MessageEncryptor.init (List.replicate 32 0) = Except.ok enc ∧
      MessageDecryptor.init (List.replicate 32 0) = Except.ok dec ∧
      MessageEncryptor.encrypt (fun _ _ => List.replicate 16 7) (List.replicate 12 0) enc
        [104, 105] none = Except.ok (List.replicate 12 0, ct) ∧
      MessageDecryptor.decrypt (fun _ _ => List.replicate 16 7) dec (List.replicate 12 0) ct
        none = Except.ok [104, 105] :=
  C1_encrypt_decrypt_roundtrip (fun _ _ => List.replicate 16 7) (fun _ _ => by simp)
    (List.replicate 32 0) (List.replicate 12 0) [104, 105] none (by simp) (by simp)
    (by decide) (by decide)

/-! ## KeyManager model (src/Encryption/key_manager.py)

`derive_key` validates the password and salt and then calls the Argon2id KDF
from the cryptography package; the KDF is abstracted as a function argument
`kdf`. For claim C9 a simple cost model is attached: argument validation
costs one unit, a KDF invocation costs `kdfCost` units, and Python `==` on
bytes first compares lengths and then scans until the first differing byte.
-/

/-- Cost-instrumented memcmp: scans until the first differing byte. -/
def memcmpTimed : List Nat → List Nat → Bool × Nat
  | [], [] => (true, 0)
  | a :: as, b :: bs =>
    if a = b then ((memcmpTimed as bs).1, (memcmpTimed as bs).2 + 1) else (false, 1)
  | _, _ => (false, 0)

/-- Cost-instrumented Python bytes equality: length check, then memcmp. -/
def bytesEqTimed (a b : List Nat) : Bool × Nat :=
  if a.length ≠ b.length then (false, 1) else memcmpTimed a b

theorem memcmpTimed_eq_true_iff (a b : List Nat) : (memcmpTimed a b).1 = true ↔ a = b := by
  induction a generalizing b with
  | nil => cases b <;> simp [memcmpTimed]
  | cons x as ih =>
    cases b with
    | nil => simp [memcmpTimed]
    | cons y bs =>
      by_cases hxy : x = y
      · simp [memcmpTimed, hxy, ih]
      · simp [memcmpTimed, hxy]

theorem bytesEqTimed_eq_true_iff (a b : List Nat) : (bytesEqTimed a b).1 = true ↔ a = b := by
  by_cases h : a.length ≠ b.length
  · simp only [bytesEqTimed, if_pos h]
    constructor
    · intro hc; exact absurd hc (by simp)
    · intro hc; subst hc; omega
  · simp only [bytesEqTimed, if_neg h]
    exact memcmpTimed_eq_true_iff a b

/-- `KeyManager.derive_key` on a bytes secret: rejects an empty password and
a salt below 8 bytes, otherwise derives with the KDF. A `str` secret enters
this code after utf-8 encoding, which is empty only for the empty string. -/
def KeyManager.derive_key (kdf : List Nat → List Nat → List Nat)
    (password salt : List Nat) : Except PyErr (List Nat) :=
  if password.isEmpty then Except.error (PyErr.valueError "Password cannot be empty")
  else if salt.length < 8 then Except.error (PyErr.valueError "Salt must be at least 8 bytes")
  else Except.ok (kdf password salt)

/-- `KeyManager.verify_key` with the cost model: derive, compare with Python
equality; a ValueError from validation is caught and returned as False
before the KDF ever runs. -/
def KeyManager.verify_key_timed (kdf : List Nat → List Nat → List Nat) (kdfCost : Nat)
    (password salt expected_key : List Nat) : Bool × Nat :=
  match KeyManager.derive_key kdf password salt with
  | Except.error _ => (false, 1)
  | Except.ok derived =>
    ((bytesEqTimed derived expected_key).1,
      1 + kdfCost + (bytesEqTimed derived expected_key).2)

/-- Claim C9 counterexample: two calls that both return False — one from an
invalid (1-byte) salt, one from a key mismatch after a successful derivation
— take different amounts of time, so the timing distinguishes the causes and
the comparison is not constant time. -/
theorem C9_counterexample :
    (KeyManager.verify_key_timed (fun _ _ => List.replicate 32 0) 1000 [112] [0] []).1
      = false ∧
    (KeyManager.verify_key_timed (fun _ _ => List.replicate 32 0) 1000 [112]
      (List.replicate 8 0) [9]).1 = false ∧
    (KeyManager.verify_key_timed (fun _ _ => List.replicate 32 0) 1000 [112] [0] []).2 ≠
    (KeyManager.verify_key_timed (fun _ _ => List.replicate 32 0) 1000 [112]
      (List.replicate 8 0) [9]).2 := by
  decide

/-- Claim C9 (amended): verify returns True exactly when validation passes
and the derived key equals the expected key, and returns False (rather than
raising) on a salt/secret format failure; but it is not constant time — a
format failure skips the derivation entirely (cost 1), while a mismatch
pays for the full derivation (cost at least 1 + kdfCost), so timing
distinguishes the two causes of False. -/
theorem C9_verify_result_and_timing (kdf : List Nat → List Nat → List Nat) (kdfCost : Nat)
    (password salt expected : List Nat) :
    ((KeyManager.verify_key_timed kdf kdfCost password salt expected).1 = true ↔
      (password ≠ [] ∧ 8 ≤ salt.length ∧ kdf password salt = expected)) ∧
    ((password = [] ∨ salt.length < 8) →
      (KeyManager.verify_key_timed kdf kdfCost password salt expected).2 = 1) ∧
    (password ≠ [] → 8 ≤ salt.length →
      1 + kdfCost ≤ (KeyManager.verify_key_timed kdf kdfCost password salt expected).2) := by
  unfold KeyManager.verify_key_timed KeyManager.derive_key
  by_cases hp : password.isEmpty
  · have hp' : password = [] := List.isEmpty_iff.mp hp
    simp [hp, hp']
  · have hp' : password ≠ [] := by
      intro hc; rw [hc] at hp; exact hp rfl
    by_cases hs : salt.length < 8
    · simp [hp, hs, hp']
    · simp only [if_neg hp, if_neg hs]
      refine ⟨?_, ?_, ?_⟩
      · rw [bytesEqTimed_eq_true_iff]
        simp [hp']
        omega
      · intro hor
        rcases hor with hor | hor
        · exact absurd hor hp'
        · exact absurd hor hs
      · intro _ _
        omega

/-- Witness for the amended C9 theorem at concrete inputs. -/
theorem C9_verify_result_and_timing_witness :
    (((KeyManager.verify_key_timed (fun _ _ => [5]) 7 [1] (List.replicate 8 0) [5]).1 = true ↔
      (([1] : List Nat) ≠ [] ∧ 8 ≤ (List.replicate 8 (0 : Nat)).length ∧
        (fun (_ _ : List Nat) => [5]) [1] (List.replicate 8 0) = [5])) ∧
    ((([1] : List Nat) = [] ∨ (List.replicate 8 (0 : Nat)).length < 8) →
      (KeyManager.verify_key_timed (fun _ _ => [5]) 7 [1] (List.replicate 8 0) [5]).2 = 1) ∧
    (([1] : List Nat) ≠ [] → 8 ≤ (List.replicate 8 (0 : Nat)).length →
      1 + 7 ≤ (KeyManager.verify_key_timed (fun _ _ => [5]) 7 [1] (List.replicate 8 0) [5]).2)) :=
  C9_verify_result_and_timing (fun _ _ => [5]) 7 [1] (List.replicate 8 0) [5]

/-! ## Storage engine model (src/StorageDB/sqlite_db.py)

`SQLITE_DB` feeds an asyncio queue into a background writer that batches
messages and inserts them with INSERT OR IGNORE on the UNIQUE `message_id`
column. The queue, the in-flight writer batch and the table are explicit
state; one execution of the writer while-body is `writerIter`, with the
scheduling nondeterminism (did `wait_for` deliver a message or time out, has
the flush interval elapsed, does the batched insert raise) passed in as an
`IterEnv`.
-/

/-- A producer chat object, duck-typed as in `_message_to_record`. -/
structure PyChat where
  chatName : Option String
  chat_name : Option String
  chatID : Option String
  chat_id : Option String
deriving DecidableEq, Repr

/-- A producer message, duck-typed: each `getattr(msg, name, default)` probe
is an `Option` field (`none` models a missing attribute). -/
structure PyMessage where
  message_id : Option String
  data_id : Option String
  raw_data : Option String
  encrypted_message : Option (List Nat)
  encryption_nonce : Option (List Nat)
  data_type : Option String
  direction : Option String
  system_hit_time : Int
  parent_chat : Option PyChat
deriving DecidableEq, Repr

/-- Python `a or b` on strings: the left operand unless it is falsy. -/
def pyOrStr (a : Option String) (b : String) : String :=
  match a with
  | some s => if s = "" then b else s
  | none => b

/-- Python `bytes(x) if x else None`: empty bytes are falsy. -/
def pyOptBytes (o : Option (List Nat)) : Option (List Nat) :=
  match o with
  | some b => if b = [] then none else some b
  | none => none

/-- Python `str(x) if x else None`: the empty string is falsy. -/
def pyOptStr (o : Option String) : Option String :=
  match o with
  | some s => if s = "" then none else some s
  | none => none

/-- The tuple produced by `_message_to_record` and bound by `executemany`. -/
structure MsgRecord where
  message_id : String
  raw_data : String
  encrypted_message : Option (List Nat)
  encryption_nonce : Option (List Nat)
  data_type : Option String
  direction : Option String
  parent_chat_name : String
  parent_chat_id : String
  system_hit_time : Int
deriving DecidableEq, Repr

/-- `_message_to_record`: duck-typed field extraction with fallbacks. -/
def messageToRecord (msg : PyMessage) : MsgRecord :=
  { message_id := pyOrStr msg.message_id (msg.data_id.getD "unknown")
    raw_data := msg.raw_data.getD ""
    encrypted_message := pyOptBytes msg.encrypted_message
    encryption_nonce := pyOptBytes msg.encryption_nonce
    data_type := pyOptStr msg.data_type
    direction := pyOptStr msg.direction
    parent_chat_name :=
      match msg.parent_chat with
      | some pc => pyOrStr pc.chatName (pc.chat_name.getD "")
      | none => ""
    parent_chat_id :=
      match msg.parent_chat with
      | some pc => pyOrStr pc.chatID (pc.chat_id.getD "")
      | none => ""
    system_hit_time := msg.system_hit_time }

/-- A row of the messages table: `id` is the AUTOINCREMENT primary key. -/
structure TableRow where
  id : Nat
  record : MsgRecord
deriving DecidableEq, Repr

/-- INSERT OR IGNORE against the UNIQUE `message_id` column: a record whose
identity is already present is silently dropped, never overwritten. -/
def insertOrIgnore (t : List TableRow) (nid : Nat) (r : MsgRecord) :
    List TableRow × Nat :=
  if t.any (fun row => row.record.message_id == r.message_id) then (t, nid)
  else (t ++ [⟨nid, r⟩], nid + 1)

/-- `executemany` of INSERT OR IGNORE over a batch of records. -/
def insertRecords (t : List TableRow) (nid : Nat) : List MsgRecord → List TableRow × Nat
  | [] => (t, nid)
  | r :: rs =>
    insertRecords (insertOrIgnore t nid r).1 (insertOrIgnore t nid r).2 rs

/-- The SQLITE_DB engine state after `init_db`/`create_table`/`start_writer`. -/
structure Engine where
  queue : List PyMessage
  batch : List PyMessage
  table : List TableRow
  nextId : Nat
  running : Bool
  connOpen : Bool
  batchSize : Nat
deriving DecidableEq, Repr

def initEngine (batchSize : Nat) : Engine :=
  { queue := [], batch := [], table := [], nextId := 1, running := true,
    connOpen := true, batchSize := batchSize }

/-- `enqueue_insert`: puts each message on the queue; never blocks, never
touches the table. -/
def enqueueInsert (e : Engine) (msgs : List PyMessage) : Engine :=
  { e with queue := e.queue ++ msgs }

/-- Scheduling nondeterminism of one writer-loop iteration. -/
structure IterEnv where
  gotMessage : Bool
  intervalElapsed : Bool
  insertRaises : Bool
deriving DecidableEq, Repr

/-- One execution of the writer-loop while-body: maybe dequeue one message
into the batch, flush when the batch reached `batch_size` or the flush
interval elapsed with a nonempty batch; a raising insert is caught by the
`except Exception` handler, which logs, sleeps and leaves the batch intact. -/
def writerIter (env : IterEnv) (e : Engine) : Engine :=
  if !e.running then e
  else
    let step :=
      match env.gotMessage, e.queue with
      | true, m :: q => (e.batch ++ [m], q)
      | _, _ => (e.batch, e.queue)
    let shouldFlush :=
      decide (e.batchSize ≤ step.1.length) || (!step.1.isEmpty && env.intervalElapsed)
    if shouldFlush && !step.1.isEmpty then
      if env.insertRaises then
        { e with batch := step.1, queue := step.2 }
      else
        { e with
          batch := []
          queue := step.2
          table := (insertRecords e.table e.nextId (step.1.map messageToRecord)).1
          nextId := (insertRecords e.table e.nextId (step.1.map messageToRecord)).2 }
    else { e with batch := step.1, queue := step.2 }

/-- `close_db`: sets `_running = False`, cancels the writer task and awaits
it, then closes the connection. The CancelledError delivered at the writer
suspension point is a BaseException, so neither the inner
`except asyncio.TimeoutError` nor the outer `except Exception` catches it,
and the residual `if batch:` flush after the while loop is skipped: the
in-flight batch is discarded, not flushed. -/
def closeDb (e : Engine) : Engine :=
  { e with running := false, batch := [], connOpen := false }

/-- An externally observable operation on the engine. -/
inductive StoreOp where
  | enqueue (msgs : List PyMessage)
  | iter (env : IterEnv)
  | close
deriving Repr

def applyOp (e : Engine) : StoreOp → Engine
  | StoreOp.enqueue msgs => enqueueInsert e msgs
  | StoreOp.iter env => writerIter env e
  | StoreOp.close => closeDb e

def runOps (batchSize : Nat) (ops : List StoreOp) : Engine :=
  ops.foldl applyOp (initEngine batchSize)

def tableIds (t : List TableRow) : List String :=
  t.map (fun r => r.record.message_id)

theorem insertOrIgnore_nodup (t : List TableRow) (nid : Nat) (r : MsgRecord)
    (h : (tableIds t).Nodup) : (tableIds (insertOrIgnore t nid r).1).Nodup := by
  cases hany : t.any (fun row => row.record.message_id == r.message_id) with
  | true => simpa [insertOrIgnore, hany] using h
  | false =>
    simp only [insertOrIgnore, hany, Bool.false_eq_true, if_neg, ite_false]
    simp only [tableIds, List.map_append, List.map_cons, List.map_nil]
    rw [List.nodup_append]
    refine ⟨h, List.nodup_singleton _, ?_⟩
    intro a ha hb
    simp only [List.mem_singleton] at hb
    subst hb
    simp only [List.any_eq_false] at hany
    simp only [tableIds, List.mem_map] at ha
    obtain ⟨row, hrow, hpath⟩ := ha
    exact absurd (by simpa using hpath) (by simpa using hany row hrow)

theorem insertOrIgnore_isPrefix (t : List TableRow) (nid : Nat) (r : MsgRecord) :
    t <+: (insertOrIgnore t nid r).1 := by
  cases hany : t.any (fun row => row.record.message_id == r.message_id) with
  | true => simp [insertOrIgnore, hany]
  | false => simp [insertOrIgnore, hany]

theorem insertRecords_nodup (rs : List MsgRecord) (t : List TableRow) (nid : Nat)
    (h : (tableIds t).Nodup) : (tableIds (insertRecords t nid rs).1).Nodup := by
  induction rs generalizing t nid with
  | nil => simpa [insertRecords] using h
  | cons r rs ih =>
    rw [insertRecords]
    exact ih _ _ (insertOrIgnore_nodup t nid r h)

theorem insertRecords_isPrefix (rs : List MsgRecord) (t : List TableRow) (nid : Nat) :
    t <+: (insertRecords t nid rs).1 := by
  induction rs generalizing t nid with
  | nil => simp [insertRecords]
  | cons r rs ih =>
    rw [insertRecords]
    exact (insertOrIgnore_isPrefix t nid r).trans (ih _ _)

theorem applyOp_table_nodup (e : Engine) (op : StoreOp)
    (h : (tableIds e.table).Nodup) : (tableIds (applyOp e op).table).Nodup := by
  cases op with
  | enqueue msgs => simpa [applyOp, enqueueInsert] using h
  | close => simpa [applyOp, closeDb] using h
  | iter env =>
    simp only [applyOp, writerIter]
    repeat' split
    all_goals first
      | exact h
      | exact insertRecords_nodup _ _ _ h

theorem applyOp_table_isPrefix (e : Engine) (op : StoreOp) :
    e.table <+: (applyOp e op).table := by
  cases op with
  | enqueue msgs => simp [applyOp, enqueueInsert]
  | close => simp [applyOp, closeDb]
  | iter env =>
    simp only [applyOp, writerIter]
    repeat' split
    all_goals first
      | exact List.prefix_refl _
      | exact insertRecords_isPrefix _ _ _

theorem foldl_applyOp_nodup (ops : List StoreOp) (e : Engine)
    (h : (tableIds e.table).Nodup) :
    (tableIds (ops.foldl applyOp e).table).Nodup := by
  induction ops generalizing e with
  | nil => exact h
  | cons op ops ih => exact ih _ (applyOp_table_nodup e op h)

theorem foldl_applyOp_isPrefix (ops : List StoreOp) (e : Engine) :
    e.table <+: (ops.foldl applyOp e).table := by
  induction ops generalizing e with
  | nil => exact List.prefix_refl _
  | cons op ops ih => exact (applyOp_table_isPrefix e op).trans (ih _)

/-- Claim C2: after any sequence of enqueue calls, writer iterations and
closes, the table holds at most one row per message_id (the projected id
list has no duplicates), and the rows already stored are a stable prefix of
every later table state — the first stored row for an identity is never
overwritten or displaced by a later duplicate. Duplicate ingestion is
absorbed by INSERT OR IGNORE and never raises (the model is total). -/
theorem C2_idempotent_ingestion (batchSize : Nat) (ops more : List StoreOp) :
    (tableIds (runOps batchSize ops).table).Nodup ∧
    (runOps batchSize ops).table <+: (runOps batchSize (ops ++ more)).table := by
  constructor
  · exact foldl_applyOp_nodup ops (initEngine batchSize) (by simp [initEngine, tableIds])
  · rw [runOps, runOps, List.foldl_append]
    exact foldl_applyOp_isPrefix more _

/-- A concrete producer message used in concrete evaluations. -/
def sampleMsg : PyMessage :=
  { message_id := some "m1", data_id := none, raw_data := some "hello",
    encrypted_message := none, encryption_nonce := none, data_type := none,
    direction := none, system_hit_time := 0, parent_chat := none }

/-- A concrete engine whose writer holds one dequeued message. -/
def sampleEngine : Engine :=
  { queue := [], batch := [sampleMsg], table := [], nextId := 1, running := true,
    connOpen := true, batchSize := 50 }

/-- Claim C3, evaluated at the failing input: one message is enqueued and
dequeued by the writer into its in-flight batch (no flush yet: batch below
`batch_size`, interval not elapsed); `close_db` then cancels the writer, the
CancelledError skips the post-loop residual flush, and the message is in
neither the table, the batch, nor the queue afterwards — it is lost, contrary
to the claimed drain-on-close. -/
theorem C3_close_drops_inflight_batch :
    (writerIter ⟨true, false, false⟩ (enqueueInsert (initEngine 50) [sampleMsg])).batch
      = [sampleMsg] ∧
    (closeDb (writerIter ⟨true, false, false⟩
      (enqueueInsert (initEngine 50) [sampleMsg]))).running = false ∧
    (closeDb (writerIter ⟨true, false, false⟩
      (enqueueInsert (initEngine 50) [sampleMsg]))).table = [] ∧
    (closeDb (writerIter ⟨true, false, false⟩
      (enqueueInsert (initEngine 50) [sampleMsg]))).batch = [] ∧
    (closeDb (writerIter ⟨true, false, false⟩
      (enqueueInsert (initEngine 50) [sampleMsg]))).queue = [] := by
  decide

/-- Claim C7: when the batched insert raises, the writer-loop body catches
the error, keeps running, and neither clears the in-flight batch nor touches
the table; a later iteration with a working connection flushes exactly that
batch. -/
theorem C7_flush_failure_keeps_batch (e : Engine)
    (hrun : e.running = true) (hbatch : e.batch ≠ []) :
    (writerIter ⟨false, true, true⟩ e).running = true ∧
    (writerIter ⟨false, true, true⟩ e).batch = e.batch ∧
    (writerIter ⟨false, true, true⟩ e).queue = e.queue ∧
    (writerIter ⟨false, true, true⟩ e).table = e.table ∧
    (writerIter ⟨false, true, false⟩ (writerIter ⟨false, true, true⟩ e)).batch = [] ∧
    (writerIter ⟨false, true, false⟩ (writerIter ⟨false, true, true⟩ e)).table =
      (insertRecords e.table e.nextId (e.batch.map messageToRecord)).1 := by
  obtain ⟨q, b, t, n, run, conn, bs⟩ := e
  have hrun2 : run = true := hrun
  subst hrun2
  have hbatch2 : b ≠ [] := hbatch
  cases b with
  | nil => exact absurd rfl hbatch2
  | cons m ms =>
    refine ⟨?_, ?_, ?_, ?_, ?_, ?_⟩ <;> simp [writerIter]

/-- Witness for C7 at a concrete engine holding one dequeued message. -/
theorem C7_flush_failure_keeps_batch_witness :
    (writerIter ⟨false, true, true⟩ sampleEngine).running = true ∧
    (writerIter ⟨false, true, true⟩ sampleEngine).batch = sampleEngine.batch ∧
    (writerIter ⟨false, true, true⟩ sampleEngine).queue = sampleEngine.queue ∧
    (writerIter ⟨false, true, true⟩ sampleEngine).table = sampleEngine.table ∧
    (writerIter ⟨false, true, false⟩
      (writerIter ⟨false, true, true⟩ sampleEngine)).batch = [] ∧
    (writerIter ⟨false, true, false⟩
      (writerIter ⟨false, true, true⟩ sampleEngine)).table =
      (insertRecords sampleEngine.table sampleEngine.nextId
        (sampleEngine.batch.map messageToRecord)).1 :=
  C7_flush_failure_keeps_batch sampleEngine rfl (by decide)

/-! ## Filesystem and profile manager model
(src/BrowserManager/profile_manager.py, src/directory.py)

Paths are segment lists. A filesystem is a set of existing directories plus
files with contents and modification times. `metadata.json` contents are
modelled structurally (`json.dump`/`json.load` of the metadata dictionary);
`paths_present` models whether the loaded dictionary has a truthy "paths"
key, which `activate_profile` checks.
-/

/-- Python `str.lower()` for platform names: character-wise lowercasing
(`String.toLower`, written to stay kernel-computable). -/
def pyLower (s : String) : String := ⟨s.data.map Char.toLower⟩

abbrev FsPath := List String

/-- The metadata dictionary written by `_generate_metadata` (relative path
constants of the `paths` map are fixed strings and are not repeated here;
`paths_profile_dir` is its one computed entry). -/
structure Metadata where
  profile_id : String
  platform : String
  version : String
  created_at : String
  last_used : String
  paths_profile_dir : FsPath
  backup_enabled : Bool
  max_backups : Nat
  is_active : Bool
  last_active_pid : Option Nat
  lock_file : String
  paths_present : Bool
deriving DecidableEq, Repr

/-- Contents of a file: text, raw bytes, or the metadata json document. -/
inductive FileData where
  | text (s : String)
  | bin (b : List Nat)
  | jsonMeta (m : Metadata)
deriving DecidableEq, Repr

structure FileEntry where
  path : FsPath
  data : FileData
  mtime : Nat
deriving DecidableEq, Repr

structure FS where
  dirs : List FsPath
  files : List FileEntry
deriving DecidableEq, Repr

def FS.dirExists (fs : FS) (p : FsPath) : Bool :=
  fs.dirs.contains p

def FS.findFile (fs : FS) (p : FsPath) : Option FileEntry :=
  fs.files.find? (fun e => e.path == p)

def FS.fileExists (fs : FS) (p : FsPath) : Bool :=
  (fs.findFile p).isSome

/-- `Path.exists()`: true for a directory or a file. -/
def FS.pathExists (fs : FS) (p : FsPath) : Bool :=
  fs.dirExists p || fs.fileExists p

/-- `mkdir(exist_ok=True)`: create the directory if absent. -/
def FS.mkdir (fs : FS) (p : FsPath) : FS :=
  if fs.dirExists p then fs else { fs with dirs := p :: fs.dirs }

/-- `write_text`/`write_bytes`/`json.dump`: create or overwrite a file. -/
def FS.writeFile (fs : FS) (p : FsPath) (d : FileData) (t : Nat) : FS :=
  { fs with files := ⟨p, d, t⟩ :: fs.files.filter (fun e => !(e.path == p)) }

/-- `shutil.rmtree`: remove the directory and everything below it. -/
def FS.rmtree (fs : FS) (root : FsPath) : FS :=
  { dirs := fs.dirs.filter (fun d => !(root.isPrefixOf d)),
    files := fs.files.filter (fun e => !(root.isPrefixOf e.path)) }

/-- `Path.unlink`: remove a single file. -/
def FS.unlink (fs : FS) (p : FsPath) : FS :=
  { fs with files := fs.files.filter (fun e => !(e.path == p)) }

/-- Errors raised by the profile manager. The first six model `ValueError`
with the corresponding message; `fileNotFound` models the untyped Python
`FileNotFoundError` from `open()`/`shutil.copy2` on a missing file, and
`jsonError` a `json.JSONDecodeError` from non-json file contents. -/
inductive PmErr where
  | profileExists
  | profileMissing
  | metadataMissing
  | corruptedMetadata
  | activeProfile
  | backupProfileMissing
  | fileNotFound (p : FsPath)
  | jsonError (p : FsPath)
deriving DecidableEq, Repr

/-- `open(p)` followed by `json.load` for a metadata file. -/
def FS.readJsonMeta (fs : FS) (p : FsPath) : Except PmErr Metadata :=
  match fs.findFile p with
  | none => Except.error (PmErr.fileNotFound p)
  | some e =>
    match e.data with
    | FileData.jsonMeta m => Except.ok m
    | _ => Except.error (PmErr.jsonError p)

/-- `DirectoryManager`: resolves platform and profile directories below
`platforms_dir`, creating them with `mkdir(parents=True, exist_ok=True)`. -/
structure DirectoryManager where
  platformsDir : FsPath
deriving DecidableEq, Repr

def DirectoryManager.get_platform_dir (d : DirectoryManager) (platform : String)
    (fs : FS) : FsPath × FS :=
  (d.platformsDir ++ [pyLower platform],
   fs.mkdir (d.platformsDir ++ [pyLower platform]))

def DirectoryManager.get_profile_dir (d : DirectoryManager)
    (platform profile_id : String) (fs : FS) : FsPath × FS :=
  ((d.get_platform_dir platform fs).1 ++ [profile_id],
   (d.get_platform_dir platform fs).2.mkdir
     ((d.get_platform_dir platform fs).1 ++ [profile_id]))

structure ProfileManager where
  directory : DirectoryManager
deriving DecidableEq, Repr

/-- `_generate_metadata`. -/
def ProfileManager.generate_metadata (pm : ProfileManager)
    (platform profile_id : String) (now : String) : Metadata :=
  { profile_id := profile_id, platform := platform, version := "0.1.6",
    created_at := now, last_used := now,
    paths_profile_dir := pm.directory.platformsDir ++ [pyLower platform, profile_id],
    backup_enabled := true, max_backups := 10,
    is_active := false, last_active_pid := none, lock_file := ".lock",
    paths_present := true }

/-- `create_profile`: inlines the profile path (it deliberately does not use
`get_profile_dir`), refuses an existing directory, then builds the skeleton,
seeds the session/cookies/fingerprint files and writes the metadata. `now`
is `datetime.now().isoformat()` and `t` the current filesystem timestamp. -/
def ProfileManager.create_profile (pm : ProfileManager) (platform profile_id : String)
    (now : String) (t : Nat) (fs : FS) : Except PmErr Metadata × FS :=
  let profile_dir := pm.directory.platformsDir ++ [pyLower platform, profile_id]
  if fs.pathExists profile_dir then (Except.error PmErr.profileExists, fs)
  else
    let fs := fs.mkdir profile_dir
    let fs := fs.mkdir (profile_dir ++ ["cache"])
    let fs := fs.mkdir (profile_dir ++ ["backups"])
    let fs := fs.mkdir (profile_dir ++ ["media"])
    let fs := fs.mkdir (profile_dir ++ ["media", "images"])
    let fs := fs.mkdir (profile_dir ++ ["media", "videos"])
    let fs := fs.mkdir (profile_dir ++ ["media", "voice"])
    let fs := fs.mkdir (profile_dir ++ ["media", "documents"])
    let fs := fs.writeFile (profile_dir ++ ["session.json"]) (FileData.text "\x7b\x7d") t
    let fs := fs.writeFile (profile_dir ++ ["cookies.json"]) (FileData.text "\x7b\x7d") t
    let fs := fs.writeFile (profile_dir ++ ["fingerprint.pkl"]) (FileData.bin []) t
    let metadata := pm.generate_metadata platform profile_id now
    let fs := fs.writeFile (profile_dir ++ ["metadata.json"]) (FileData.jsonMeta metadata) t
    (Except.ok metadata, fs)

/-- `activate_profile`: `pid` is `os.getpid()`, `now` the isoformat clock,
`t` the filesystem timestamp. -/
def ProfileManager.activate_profile (pm : ProfileManager) (platform profile_id : String)
    (pid : Nat) (now : String) (t : Nat) (fs : FS) : Except PmErr Unit × FS :=
  let profile_dir := pm.directory.platformsDir ++ [pyLower platform, profile_id]
  if !(fs.pathExists profile_dir) then (Except.error PmErr.profileMissing, fs)
  else
    let metadata_file := profile_dir ++ ["metadata.json"]
    if !(fs.pathExists metadata_file) then (Except.error PmErr.metadataMissing, fs)
    else
      match fs.readJsonMeta metadata_file with
      | Except.error e => (Except.error e, fs)
      | Except.ok metadata =>
        if !metadata.paths_present then (Except.error PmErr.corruptedMetadata, fs)
        else if metadata.is_active then (Except.ok (), fs)
        else
          let metadata2 := { metadata with
            is_active := true
            last_active_pid := some pid
            last_used := now }
          let fs := fs.writeFile metadata_file (FileData.jsonMeta metadata2) t
          let fs := fs.writeFile (profile_dir ++ [".lock"])
            (FileData.text (toString pid)) t
          (Except.ok (), fs)

/-- `delete_profile`. -/
def ProfileManager.delete_profile (pm : ProfileManager) (platform profile_id : String)
    (force : Bool) (fs : FS) : Except PmErr Unit × FS :=
  let profile_dir := pm.directory.platformsDir ++ [pyLower platform, profile_id]
  if !(fs.pathExists profile_dir) then (Except.error PmErr.profileMissing, fs)
  else
    match fs.readJsonMeta (profile_dir ++ ["metadata.json"]) with
    | Except.error e => (Except.error e, fs)
    | Except.ok metadata =>
      if metadata.is_active && !force then (Except.error PmErr.activeProfile, fs)
      else (Except.ok (), fs.rmtree profile_dir)

/-- The glob pattern `session_*.json` on a file name. -/
def isBackupGlobName (name : String) : Bool :=
  name.startsWith "session_" && name.endsWith ".json"

/-- A file entry directly inside `backup_dir` matching `session_*.json`. -/
def inDirMatching (backup_dir : FsPath) (e : FileEntry) : Bool :=
  match e.path.drop backup_dir.length with
  | [name] => (e.path.take backup_dir.length == backup_dir) && isBackupGlobName name
  | _ => false

/-- Insert into a list kept sorted by modification time, newest first. -/
def insertDesc (e : FileEntry) : List FileEntry → List FileEntry
  | [] => [e]
  | f :: rest => if e.mtime ≤ f.mtime then f :: insertDesc e rest else e :: f :: rest

/-- `sorted(key=mtime, reverse=True)`. -/
def sortByMtimeDesc (l : List FileEntry) : List FileEntry :=
  l.foldr insertDesc []

/-- `_prune_backups`: sort the globbed backups newest-first, keep the first
`max_backups`, unlink the rest. -/
def ProfileManager.prune_backups (fs : FS) (profile_dir : FsPath)
    (max_backups : Nat) : FS :=
  ((sortByMtimeDesc (fs.files.filter (inDirMatching (profile_dir ++ ["backups"])))).drop
    max_backups).foldl (fun acc e => acc.unlink e.path) fs

/-- `create_backup`: resolve the profile directory through `get_profile_dir`
(which creates it), check existence, read metadata, no-op when backups are
disabled, otherwise `shutil.copy2` the session file to a timestamped backup
name (copy2 preserves the source modification time) and prune. `ts` is
the strftime timestamp of the wall clock. -/
def ProfileManager.create_backup (pm : ProfileManager) (platform profile_id : String)
    (ts : String) (fs : FS) : Except PmErr Unit × FS :=
  let resolved := pm.directory.get_profile_dir platform profile_id fs
  let profile_dir := resolved.1
  let fs := resolved.2
  if !(fs.pathExists profile_dir) then (Except.error PmErr.backupProfileMissing, fs)
  else
    match fs.readJsonMeta (profile_dir ++ ["metadata.json"]) with
    | Except.error e => (Except.error e, fs)
    | Except.ok metadata =>
      if !metadata.backup_enabled then (Except.ok (), fs)
      else
        let backup_file := profile_dir ++ ["backups", "session_" ++ ts ++ ".json"]
        let session_file := profile_dir ++ ["session.json"]
        match fs.findFile session_file with
        | none => (Except.error (PmErr.fileNotFound session_file), fs)
        | some se =>
          let fs := fs.writeFile backup_file se.data se.mtime
          (Except.ok (), ProfileManager.prune_backups fs profile_dir metadata.max_backups)

/-! ### Filesystem lemmas -/

theorem FS.mkdir_files (fs : FS) (p : FsPath) : (fs.mkdir p).files = fs.files := by
  unfold FS.mkdir; split <;> rfl

theorem FS.mkdir_dirExists_self (fs : FS) (p : FsPath) :
    (fs.mkdir p).dirExists p = true := by
  unfold FS.mkdir
  split
  · assumption
  · simp [FS.dirExists]

theorem FS.mkdir_of_dirExists (fs : FS) (p : FsPath) (h : fs.dirExists p = true) :
    fs.mkdir p = fs := by
  unfold FS.mkdir
  rw [if_pos h]

theorem FS.findFile_mkdir (fs : FS) (p q : FsPath) :
    (fs.mkdir p).findFile q = fs.findFile q := by
  unfold FS.findFile
  rw [FS.mkdir_files]

theorem FS.dirExists_mkdir_mono (fs : FS) (p q : FsPath) (h : fs.dirExists q = true) :
    (fs.mkdir p).dirExists q = true := by
  unfold FS.mkdir
  split
  · exact h
  · exact List.elem_iff.mpr (List.mem_cons_of_mem _ (List.elem_iff.mp h))

theorem FS.dirExists_writeFile (fs : FS) (p : FsPath) (d : FileData) (t : Nat)
    (q : FsPath) : (fs.writeFile p d t).dirExists q = fs.dirExists q := rfl

theorem find?_path_filter_ne (files : List FileEntry) (p q : FsPath) (h : q ≠ p) :
    (files.filter (fun e => !(e.path == p))).find? (fun e => e.path == q) =
    files.find? (fun e => e.path == q) := by
  induction files with
  | nil => rfl
  | cons e l ih =>
    by_cases hep : e.path = p
    · have h1 : (e.path == p) = true := by simp [hep]
      have h2 : (e.path == q) = false := by
        rw [hep]
        exact beq_eq_false_iff_ne.mpr (fun hc => h hc.symm)
      simp [List.filter_cons, h1, List.find?_cons, h2, ih]
    · have h1 : (e.path == p) = false := beq_eq_false_iff_ne.mpr hep
      cases hq : (e.path == q) with
      | true => simp [List.filter_cons, h1, List.find?_cons, hq]
      | false => simp [List.filter_cons, h1, List.find?_cons, hq, ih]

theorem FS.findFile_writeFile_self (fs : FS) (p : FsPath) (d : FileData) (t : Nat) :
    (fs.writeFile p d t).findFile p = some ⟨p, d, t⟩ := by
  unfold FS.writeFile FS.findFile
  simp [List.find?_cons]

theorem FS.findFile_writeFile_ne (fs : FS) (p : FsPath) (d : FileData) (t : Nat)
    (q : FsPath) (h : q ≠ p) :
    (fs.writeFile p d t).findFile q = fs.findFile q := by
  unfold FS.writeFile FS.findFile
  have h1 : (p == q) = false := beq_eq_false_iff_ne.mpr (fun hc => h hc.symm)
  simp only [List.find?_cons, h1]
  exact find?_path_filter_ne fs.files p q h

theorem append_singleton_ne (pd : FsPath) (a b : String) (h : a ≠ b) :
    pd ++ [a] ≠ pd ++ [b] := by
  intro hc
  have h2 : [a] = [b] := by
    have := congrArg (fun l => List.drop pd.length l) hc
    simpa using this
  simp at h2
  exact h h2

theorem isPrefixOf_self (p : FsPath) : p.isPrefixOf p = true := by
  induction p with
  | nil => rfl
  | cons a l ih => simp [List.isPrefixOf, ih]

theorem FS.rmtree_pathExists_self (fs : FS) (root : FsPath) :
    (fs.rmtree root).pathExists root = false := by
  unfold FS.rmtree FS.pathExists FS.dirExists FS.fileExists FS.findFile
  simp only [Bool.or_eq_false_iff]
  constructor
  · by_contra hc
    simp only [Bool.not_eq_false] at hc
    have hmem : root ∈ fs.dirs.filter (fun d => !(root.isPrefixOf d)) := by
      rw [← List.elem_iff]
      exact hc
    have := (List.mem_filter.mp hmem).2
    rw [isPrefixOf_self] at this
    simp at this
  · by_contra hc
    simp only [Bool.not_eq_false, Option.isSome_iff_exists] at hc
    obtain ⟨e, he⟩ := hc
    have hmem := List.mem_of_find?_eq_some he
    have hpe := List.find?_some he
    have hmat := (List.mem_filter.mp hmem).2
    have : e.path = root := by simpa using hpe
    rw [this, isPrefixOf_self] at hmat
    simp at hmat

/-- The profile directory path as inlined by create/activate/delete. -/
abbrev profileDirOf (pm : ProfileManager) (platform profile_id : String) : FsPath :=
  pm.directory.platformsDir ++ [pyLower platform, profile_id]

/-- Claim C4: create is exclusive — when the profile directory exists it
fails with the AlreadyExists ValueError and leaves the filesystem (hence the
metadata and contents of the existing profile) unchanged; when it does not
exist, it builds the full skeleton (cache, backups, media subdirectories),
seeds the session and cookie files with the two-byte empty json object, an
empty fingerprint placeholder, and writes metadata with is_active = false. -/
theorem C4_create_profile_exclusive (pm : ProfileManager) (platform profile_id : String)
    (now : String) (t : Nat) (fs : FS) :
    (fs.pathExists (profileDirOf pm platform profile_id) = true →
      pm.create_profile platform profile_id now t fs =
        (Except.error PmErr.profileExists, fs)) ∧
    (fs.pathExists (profileDirOf pm platform profile_id) = false →
      (pm.create_profile platform profile_id now t fs).1 =
        Except.ok (pm.generate_metadata platform profile_id now) ∧
      (pm.generate_metadata platform profile_id now).is_active = false ∧
      (pm.create_profile platform profile_id now t fs).2.dirExists
        (profileDirOf pm platform profile_id) = true ∧
      (pm.create_profile platform profile_id now t fs).2.dirExists
        (profileDirOf pm platform profile_id ++ ["cache"]) = true ∧
      (pm.create_profile platform profile_id now t fs).2.dirExists
        (profileDirOf pm platform profile_id ++ ["backups"]) = true ∧
      (pm.create_profile platform profile_id now t fs).2.dirExists
        (profileDirOf pm platform profile_id ++ ["media"]) = true ∧
      (pm.create_profile platform profile_id now t fs).2.dirExists
        (profileDirOf pm platform profile_id ++ ["media", "images"]) = true ∧
      (pm.create_profile platform profile_id now t fs).2.dirExists
        (profileDirOf pm platform profile_id ++ ["media", "videos"]) = true ∧
      (pm.create_profile platform profile_id now t fs).2.dirExists
        (profileDirOf pm platform profile_id ++ ["media", "voice"]) = true ∧
      (pm.create_profile platform profile_id now t fs).2.dirExists
        (profileDirOf pm platform profile_id ++ ["media", "documents"]) = true ∧
      (pm.create_profile platform profile_id now t fs).2.findFile
        (profileDirOf pm platform profile_id ++ ["session.json"]) =
        some ⟨profileDirOf pm platform profile_id ++ ["session.json"],
          FileData.text "\x7b\x7d", t⟩ ∧
      (pm.create_profile platform profile_id now t fs).2.findFile
        (profileDirOf pm platform profile_id ++ ["cookies.json"]) =
        some ⟨profileDirOf pm platform profile_id ++ ["cookies.json"],
          FileData.text "\x7b\x7d", t⟩ ∧
      (pm.create_profile platform profile_id now t fs).2.findFile
        (profileDirOf pm platform profile_id ++ ["fingerprint.pkl"]) =
        some ⟨profileDirOf pm platform profile_id ++ ["fingerprint.pkl"],
          FileData.bin [], t⟩ ∧
      (pm.create_profile platform profile_id now t fs).2.findFile
        (profileDirOf pm platform profile_id ++ ["metadata.json"]) =
        some ⟨profileDirOf pm platform profile_id ++ ["metadata.json"],
          FileData.jsonMeta (pm.generate_metadata platform profile_id now), t⟩) := by
  constructor
  · intro hex
    have hex2 : fs.pathExists (pm.directory.platformsDir ++ [pyLower platform, profile_id])
        = true := hex
    simp [ProfileManager.create_profile, hex2]
  · intro hex
    have hex2 : fs.pathExists (pm.directory.platformsDir ++ [pyLower platform, profile_id])
        = false := hex
    refine ⟨?_, rfl, ?_, ?_, ?_, ?_, ?_, ?_, ?_, ?_, ?_, ?_, ?_, ?_⟩
    all_goals simp only [ProfileManager.create_profile, hex2, Bool.false_eq_true,
      if_false, FS.dirExists_writeFile]
    · exact FS.dirExists_mkdir_mono _ _ _ (FS.dirExists_mkdir_mono _ _ _
        (FS.dirExists_mkdir_mono _ _ _ (FS.dirExists_mkdir_mono _ _ _
        (FS.dirExists_mkdir_mono _ _ _ (FS.dirExists_mkdir_mono _ _ _
        (FS.dirExists_mkdir_mono _ _ _ (FS.mkdir_dirExists_self fs _)))))))
    · exact FS.dirExists_mkdir_mono _ _ _ (FS.dirExists_mkdir_mono _ _ _
        (FS.dirExists_mkdir_mono _ _ _ (FS.dirExists_mkdir_mono _ _ _
        (FS.dirExists_mkdir_mono _ _ _ (FS.dirExists_mkdir_mono _ _ _
        (FS.mkdir_dirExists_self _ _))))))
    · exact FS.dirExists_mkdir_mono _ _ _ (FS.dirExists_mkdir_mono _ _ _
        (FS.dirExists_mkdir_mono _ _ _ (FS.dirExists_mkdir_mono _ _ _
        (FS.dirExists_mkdir_mono _ _ _ (FS.mkdir_dirExists_self _ _)))))
    · exact FS.dirExists_mkdir_mono _ _ _ (FS.dirExists_mkdir_mono _ _ _
        (FS.dirExists_mkdir_mono _ _ _ (FS.dirExists_mkdir_mono _ _ _
        (FS.mkdir_dirExists_self _ _))))
    · exact FS.dirExists_mkdir_mono _ _ _ (FS.dirExists_mkdir_mono _ _ _
        (FS.dirExists_mkdir_mono _ _ _ (FS.mkdir_dirExists_self _ _)))
    · exact FS.dirExists_mkdir_mono _ _ _ (FS.dirExists_mkdir_mono _ _ _
        (FS.mkdir_dirExists_self _ _))
    · exact FS.dirExists_mkdir_mono _ _ _ (FS.mkdir_dirExists_self _ _)
    · exact FS.mkdir_dirExists_self _ _
    · rw [FS.findFile_writeFile_ne _ _ _ _ _ (append_singleton_ne _ _ _ (by decide)),
        FS.findFile_writeFile_ne _ _ _ _ _ (append_singleton_ne _ _ _ (by decide)),
        FS.findFile_writeFile_ne _ _ _ _ _ (append_singleton_ne _ _ _ (by decide)),
        FS.findFile_writeFile_self]
    · rw [FS.findFile_writeFile_ne _ _ _ _ _ (append_singleton_ne _ _ _ (by decide)),
        FS.findFile_writeFile_ne _ _ _ _ _ (append_singleton_ne _ _ _ (by decide)),
        FS.findFile_writeFile_self]
    · rw [FS.findFile_writeFile_ne _ _ _ _ _ (append_singleton_ne _ _ _ (by decide)),
        FS.findFile_writeFile_self]
    · rw [FS.findFile_writeFile_self]

/-- Witness for C4: a fresh profile is created in an empty filesystem, and a
second create against a filesystem already holding the directory fails with
AlreadyExists, changing nothing. -/
theorem C4_create_profile_exclusive_witness :
    ((ProfileManager.mk ⟨["root"]⟩).create_profile "whatsapp" "A" "T" 0 ⟨[], []⟩).1 =
      Except.ok ((ProfileManager.mk ⟨["root"]⟩).generate_metadata "whatsapp" "A" "T") ∧
    ((ProfileManager.mk ⟨["root"]⟩).generate_metadata "whatsapp" "A" "T").is_active
      = false ∧
    ((ProfileManager.mk ⟨["root"]⟩).create_profile "whatsapp" "A" "T" 0
      ⟨[], []⟩).2.dirExists (profileDirOf (ProfileManager.mk ⟨["root"]⟩) "whatsapp" "A")
      = true ∧
    ((ProfileManager.mk ⟨["root"]⟩).create_profile "whatsapp" "A" "T" 0
      ⟨[], []⟩).2.dirExists (profileDirOf (ProfileManager.mk ⟨["root"]⟩) "whatsapp" "A"
      ++ ["cache"]) = true ∧
    ((ProfileManager.mk ⟨["root"]⟩).create_profile "whatsapp" "A" "T" 0
      ⟨[], []⟩).2.dirExists (profileDirOf (ProfileManager.mk ⟨["root"]⟩) "whatsapp" "A"
      ++ ["backups"]) = true ∧
    ((ProfileManager.mk ⟨["root"]⟩).create_profile "whatsapp" "A" "T" 0
      ⟨[], []⟩).2.dirExists (profileDirOf (ProfileManager.mk ⟨["root"]⟩) "whatsapp" "A"
      ++ ["media"]) = true ∧
    ((ProfileManager.mk ⟨["root"]⟩).create_profile "whatsapp" "A" "T" 0
      ⟨[], []⟩).2.dirExists (profileDirOf (ProfileManager.mk ⟨["root"]⟩) "whatsapp" "A"
      ++ ["media", "images"]) = true ∧
    ((ProfileManager.mk ⟨["root"]⟩).create_profile "whatsapp" "A" "T" 0
      ⟨[], []⟩).2.dirExists (profileDirOf (ProfileManager.mk ⟨["root"]⟩) "whatsapp" "A"
      ++ ["media", "videos"]) = true ∧
    ((ProfileManager.mk ⟨["root"]⟩).create_profile "whatsapp" "A" "T" 0
      ⟨[], []⟩).2.dirExists (profileDirOf (ProfileManager.mk ⟨["root"]⟩) "whatsapp" "A"
      ++ ["media", "voice"]) = true ∧
    ((ProfileManager.mk ⟨["root"]⟩).create_profile "whatsapp" "A" "T" 0
      ⟨[], []⟩).2.dirExists (profileDirOf (ProfileManager.mk ⟨["root"]⟩) "whatsapp" "A"
      ++ ["media", "documents"]) = true ∧
    ((ProfileManager.mk ⟨["root"]⟩).create_profile "whatsapp" "A" "T" 0
      ⟨[], []⟩).2.findFile (profileDirOf (ProfileManager.mk ⟨["root"]⟩) "whatsapp" "A"
      ++ ["session.json"]) =
      some ⟨profileDirOf (ProfileManager.mk ⟨["root"]⟩) "whatsapp" "A"
        ++ ["session.json"], FileData.text "\x7b\x7d", 0⟩ ∧
    ((ProfileManager.mk ⟨["root"]⟩).create_profile "whatsapp" "A" "T" 0
      ⟨[], []⟩).2.findFile (profileDirOf (ProfileManager.mk ⟨["root"]⟩) "whatsapp" "A"
      ++ ["cookies.json"]) =
      some ⟨profileDirOf (ProfileManager.mk ⟨["root"]⟩) "whatsapp" "A"
        ++ ["cookies.json"], FileData.text "\x7b\x7d", 0⟩ ∧
    ((ProfileManager.mk ⟨["root"]⟩).create_profile "whatsapp" "A" "T" 0
      ⟨[], []⟩).2.findFile (profileDirOf (ProfileManager.mk ⟨["root"]⟩) "whatsapp" "A"
      ++ ["fingerprint.pkl"]) =
      some ⟨profileDirOf (ProfileManager.mk ⟨["root"]⟩) "whatsapp" "A"
        ++ ["fingerprint.pkl"], FileData.bin [], 0⟩ ∧
    ((ProfileManager.mk ⟨["root"]⟩).create_profile "whatsapp" "A" "T" 0
      ⟨[], []⟩).2.findFile (profileDirOf (ProfileManager.mk ⟨["root"]⟩) "whatsapp" "A"
      ++ ["metadata.json"]) =
      some ⟨profileDirOf (ProfileManager.mk ⟨["root"]⟩) "whatsapp" "A"
        ++ ["metadata.json"],
        FileData.jsonMeta ((ProfileManager.mk ⟨["root"]⟩).generate_metadata
          "whatsapp" "A" "T"), 0⟩ ∧
    (ProfileManager.mk ⟨["root"]⟩).create_profile "whatsapp" "A" "T" 0
        ⟨[["root", "whatsapp", "A"]], []⟩ =
      (Except.error PmErr.profileExists, ⟨[["root", "whatsapp", "A"]], []⟩) := by
  have h2 := (C4_create_profile_exclusive (ProfileManager.mk ⟨["root"]⟩) "whatsapp" "A"
    "T" 0 ⟨[], []⟩).2 (by decide)
  have h1 := (C4_create_profile_exclusive (ProfileManager.mk ⟨["root"]⟩) "whatsapp" "A"
    "T" 0 ⟨[["root", "whatsapp", "A"]], []⟩).1 (by decide)
  exact ⟨h2.1, h2.2.1, h2.2.2.1, h2.2.2.2.1, h2.2.2.2.2.1, h2.2.2.2.2.2.1,
    h2.2.2.2.2.2.2.1, h2.2.2.2.2.2.2.2.1, h2.2.2.2.2.2.2.2.2.1,
    h2.2.2.2.2.2.2.2.2.2.1, h2.2.2.2.2.2.2.2.2.2.2.1, h2.2.2.2.2.2.2.2.2.2.2.2.1,
    h2.2.2.2.2.2.2.2.2.2.2.2.2.1, h2.2.2.2.2.2.2.2.2.2.2.2.2.2, h1⟩

/-- Claim C5: delete fails with NotFound when the profile directory is
absent; fails with ActiveProfileError when metadata reports is_active and
force is false, leaving the filesystem unchanged; otherwise (inactive or
forced) removes the profile directory recursively, so it no longer exists. -/
theorem C5_delete_profile_guard (pm : ProfileManager) (platform profile_id : String)
    (force : Bool) (fs : FS) (m : Metadata) :
    (fs.pathExists (profileDirOf pm platform profile_id) = false →
      pm.delete_profile platform profile_id force fs =
        (Except.error PmErr.profileMissing, fs)) ∧
    (fs.pathExists (profileDirOf pm platform profile_id) = true →
     fs.readJsonMeta (profileDirOf pm platform profile_id ++ ["metadata.json"]) =
       Except.ok m →
     ((m.is_active = true → force = false →
        pm.delete_profile platform profile_id force fs =
          (Except.error PmErr.activeProfile, fs)) ∧
      (m.is_active = false ∨ force = true →
        pm.delete_profile platform profile_id force fs =
          (Except.ok (), fs.rmtree (profileDirOf pm platform profile_id)) ∧
        (fs.rmtree (profileDirOf pm platform profile_id)).pathExists
          (profileDirOf pm platform profile_id) = false))) := by
  constructor
  · intro hex
    have hex2 : fs.pathExists (pm.directory.platformsDir ++ [pyLower platform, profile_id])
        = false := hex
    simp [ProfileManager.delete_profile, hex2]
  · intro hex hmeta
    have hex2 : fs.pathExists (pm.directory.platformsDir ++ [pyLower platform, profile_id])
        = true := hex
    have hmeta2 : fs.readJsonMeta (pm.directory.platformsDir ++
        [pyLower platform, profile_id, "metadata.json"]) = Except.ok m := by
      have hpp : pm.directory.platformsDir ++ [pyLower platform, profile_id] ++
          ["metadata.json"] =
          pm.directory.platformsDir ++ [pyLower platform, profile_id, "metadata.json"] := by
        simp
      rw [← hpp]
      exact hmeta
    constructor
    · intro hact hforce
      simp [ProfileManager.delete_profile, hex2, hmeta2, hact, hforce]
    · intro hor
      refine ⟨?_, FS.rmtree_pathExists_self fs _⟩
      rcases hor with hor | hor
      · simp [ProfileManager.delete_profile, hex2, hmeta2, hor]
      · simp [ProfileManager.delete_profile, hex2, hmeta2, hor]

/-- A concrete active profile metadata value. -/
def mActive : Metadata :=
  { profile_id := "A", platform := "whatsapp", version := "0.1.6", created_at := "T",
    last_used := "T", paths_profile_dir := ["root", "whatsapp", "A"],
    backup_enabled := true, max_backups := 10, is_active := true,
    last_active_pid := some 7, lock_file := ".lock", paths_present := true }

/-- A concrete filesystem holding one active profile. -/
def fsActive : FS :=
  { dirs := [["root", "whatsapp", "A"]],
    files := [⟨["root", "whatsapp", "A", "metadata.json"], FileData.jsonMeta mActive, 0⟩] }

/-- Witness for C5: delete of a missing profile, of an active profile
without force, and of an active profile with force. -/
theorem C5_delete_profile_guard_witness :
    ((ProfileManager.mk ⟨["root"]⟩).delete_profile "whatsapp" "A" false ⟨[], []⟩ =
      (Except.error PmErr.profileMissing, (⟨[], []⟩ : FS))) ∧
    ((ProfileManager.mk ⟨["root"]⟩).delete_profile "whatsapp" "A" false fsActive =
      (Except.error PmErr.activeProfile, fsActive)) ∧
    ((ProfileManager.mk ⟨["root"]⟩).delete_profile "whatsapp" "A" true fsActive =
      (Except.ok (), fsActive.rmtree
        (profileDirOf (ProfileManager.mk ⟨["root"]⟩) "whatsapp" "A")) ∧
      (fsActive.rmtree (profileDirOf (ProfileManager.mk ⟨["root"]⟩) "whatsapp" "A")).pathExists
        (profileDirOf (ProfileManager.mk ⟨["root"]⟩) "whatsapp" "A") = false) :=
  ⟨(C5_delete_profile_guard (ProfileManager.mk ⟨["root"]⟩) "whatsapp" "A" false
      ⟨[], []⟩ mActive).1 (by decide),
   ((C5_delete_profile_guard (ProfileManager.mk ⟨["root"]⟩) "whatsapp" "A" false
      fsActive mActive).2 (by decide) rfl).1 (by decide) (by decide),
   ((C5_delete_profile_guard (ProfileManager.mk ⟨["root"]⟩) "whatsapp" "A" true
      fsActive mActive).2 (by decide) rfl).2 (Or.inr rfl)⟩

/-- Claim C6: activate of an existing, non-corrupted profile is idempotent —
when metadata already reports is_active it returns without touching the
filesystem (no metadata rewrite, no lock write); otherwise it writes back
metadata with is_active = true, the caller pid and the new last_used value,
and writes a lock file whose sole content is the pid. -/
theorem C6_activate_idempotent (pm : ProfileManager) (platform profile_id : String)
    (pid : Nat) (now : String) (t : Nat) (fs : FS) (m : Metadata)
    (hdir : fs.pathExists (profileDirOf pm platform profile_id) = true)
    (hmf : fs.pathExists (profileDirOf pm platform profile_id ++ ["metadata.json"]) = true)
    (hread : fs.readJsonMeta (profileDirOf pm platform profile_id ++ ["metadata.json"]) =
      Except.ok m)
    (hpaths : m.paths_present = true) :
    (m.is_active = true →
      pm.activate_profile platform profile_id pid now t fs = (Except.ok (), fs)) ∧
    (m.is_active = false →
      pm.activate_profile platform profile_id pid now t fs =
        (Except.ok (),
          (fs.writeFile (profileDirOf pm platform profile_id ++ ["metadata.json"])
            (FileData.jsonMeta { m with is_active := true, last_active_pid := some pid, last_used := now }) t).writeFile
            (profileDirOf pm platform profile_id ++ [".lock"])
            (FileData.text (toString pid)) t) ∧
      (pm.activate_profile platform profile_id pid now t fs).2.findFile
        (profileDirOf pm platform profile_id ++ ["metadata.json"]) =
        some ⟨profileDirOf pm platform profile_id ++ ["metadata.json"],
          FileData.jsonMeta { m with is_active := true, last_active_pid := some pid, last_used := now }, t⟩ ∧
      (pm.activate_profile platform profile_id pid now t fs).2.findFile
        (profileDirOf pm platform profile_id ++ [".lock"]) =
        some ⟨profileDirOf pm platform profile_id ++ [".lock"],
          FileData.text (toString pid), t⟩) := by
  have hdir2 : fs.pathExists (pm.directory.platformsDir ++ [pyLower platform, profile_id])
      = true := hdir
  have hpp : pm.directory.platformsDir ++ [pyLower platform, profile_id] ++
      ["metadata.json"] =
      pm.directory.platformsDir ++ [pyLower platform, profile_id, "metadata.json"] := by
    simp
  have hmf2 : fs.pathExists (pm.directory.platformsDir ++
      [pyLower platform, profile_id, "metadata.json"]) = true := by
    rw [← hpp]; exact hmf
  have hread2 : fs.readJsonMeta (pm.directory.platformsDir ++
      [pyLower platform, profile_id, "metadata.json"]) = Except.ok m := by
    rw [← hpp]; exact hread
  constructor
  · intro hact
    simp [ProfileManager.activate_profile, hdir2, hmf2, hread2, hpaths, hact]
  · intro hact
    refine ⟨?_, ?_, ?_⟩
    · simp [ProfileManager.activate_profile, hdir2, hmf2, hread2, hpaths, hact]
    · have heq : pm.activate_profile platform profile_id pid now t fs =
          (Except.ok (),
            (fs.writeFile (profileDirOf pm platform profile_id ++ ["metadata.json"])
              (FileData.jsonMeta { m with is_active := true, last_active_pid := some pid, last_used := now }) t).writeFile
              (profileDirOf pm platform profile_id ++ [".lock"])
              (FileData.text (toString pid)) t) := by
        simp [ProfileManager.activate_profile, hdir2, hmf2, hread2, hpaths, hact]
      rw [heq]
      rw [FS.findFile_writeFile_ne _ _ _ _ _ (append_singleton_ne _ _ _ (by decide)),
        FS.findFile_writeFile_self]
    · have heq : pm.activate_profile platform profile_id pid now t fs =
          (Except.ok (),
            (fs.writeFile (profileDirOf pm platform profile_id ++ ["metadata.json"])
              (FileData.jsonMeta { m with is_active := true, last_active_pid := some pid, last_used := now }) t).writeFile
              (profileDirOf pm platform profile_id ++ [".lock"])
              (FileData.text (toString pid)) t) := by
        simp [ProfileManager.activate_profile, hdir2, hmf2, hread2, hpaths, hact]
      rw [heq]
      rw [FS.findFile_writeFile_self]

/-- A concrete inactive profile metadata value. -/
def mInactive : Metadata :=
  { mActive with is_active := false, last_active_pid := none }

/-- A concrete filesystem holding one inactive profile. -/
def fsInactive : FS :=
  { dirs := [["root", "whatsapp", "A"]],
    files := [⟨["root", "whatsapp", "A", "metadata.json"], FileData.jsonMeta mInactive, 0⟩] }

/-- Witness for C6: activating an already-active profile changes nothing;
activating an inactive one writes the metadata and the lock file. -/
theorem C6_activate_idempotent_witness :
    ((ProfileManager.mk ⟨["root"]⟩).activate_profile "whatsapp" "A" 7 "T2" 1 fsActive =
      (Except.ok (), fsActive)) ∧
    ((ProfileManager.mk ⟨["root"]⟩).activate_profile "whatsapp" "A" 7 "T2" 1 fsInactive =
      (Except.ok (),
        (fsInactive.writeFile (profileDirOf (ProfileManager.mk ⟨["root"]⟩) "whatsapp" "A"
          ++ ["metadata.json"])
          (FileData.jsonMeta { mInactive with is_active := true, last_active_pid := some 7, last_used := "T2" }) 1).writeFile
          (profileDirOf (ProfileManager.mk ⟨["root"]⟩) "whatsapp" "A" ++ [".lock"])
          (FileData.text (toString 7)) 1) ∧
      ((ProfileManager.mk ⟨["root"]⟩).activate_profile "whatsapp" "A" 7 "T2"
          1 fsInactive).2.findFile
        (profileDirOf (ProfileManager.mk ⟨["root"]⟩) "whatsapp" "A" ++ ["metadata.json"]) =
        some ⟨profileDirOf (ProfileManager.mk ⟨["root"]⟩) "whatsapp" "A"
          ++ ["metadata.json"],
          FileData.jsonMeta { mInactive with is_active := true, last_active_pid := some 7, last_used := "T2" }, 1⟩ ∧
      ((ProfileManager.mk ⟨["root"]⟩).activate_profile "whatsapp" "A" 7 "T2"
          1 fsInactive).2.findFile
        (profileDirOf (ProfileManager.mk ⟨["root"]⟩) "whatsapp" "A" ++ [".lock"]) =
        some ⟨profileDirOf (ProfileManager.mk ⟨["root"]⟩) "whatsapp" "A" ++ [".lock"],
          FileData.text (toString 7), 1⟩) :=
  ⟨(C6_activate_idempotent (ProfileManager.mk ⟨["root"]⟩) "whatsapp" "A" 7 "T2" 1
      fsActive mActive (by decide) (by decide) rfl (by decide)).1 (by decide),
   (C6_activate_idempotent (ProfileManager.mk ⟨["root"]⟩) "whatsapp" "A" 7 "T2" 1
      fsInactive mInactive (by decide) (by decide) rfl (by decide)).2 (by decide)⟩

theorem FS.readJsonMeta_error_cases (fs : FS) (p : FsPath) (e : PmErr)
    (h : fs.readJsonMeta p = Except.error e) :
    e = PmErr.fileNotFound p ∨ e = PmErr.jsonError p := by
  unfold FS.readJsonMeta at h
  repeat' split at h
  all_goals first
    | (simp only [Except.error.injEq] at h; exact Or.inl h.symm)
    | (simp only [Except.error.injEq] at h; exact Or.inr h.symm)
    | exact Except.noConfusion h

/-- Claim C10: the typed "Profile does not exist." branch of create_backup
is unreachable — get_profile_dir creates the profile directory with
mkdir(parents=True, exist_ok=True) before the existence check runs, so the
check always sees an existing directory; on a never-created profile the call
instead fails later with the untyped FileNotFoundError from opening
metadata.json. -/
theorem C10_backup_missing_branch_unreachable (pm : ProfileManager)
    (platform profile_id ts : String) (fs : FS) :
    ((pm.create_backup platform profile_id ts fs).1 ≠
      Except.error PmErr.backupProfileMissing) ∧
    (fs.findFile ((pm.directory.get_profile_dir platform profile_id fs).1 ++
        ["metadata.json"]) = none →
      (pm.create_backup platform profile_id ts fs).1 =
        Except.error (PmErr.fileNotFound
          ((pm.directory.get_profile_dir platform profile_id fs).1 ++
            ["metadata.json"]))) := by
  have hdirs : ((fs.mkdir (pm.directory.platformsDir ++ [pyLower platform])).mkdir
      (pm.directory.platformsDir ++ [pyLower platform] ++ [profile_id])).pathExists
      (pm.directory.platformsDir ++ [pyLower platform] ++ [profile_id]) = true := by
    unfold FS.pathExists
    rw [FS.mkdir_dirExists_self]
    rfl
  constructor
  · intro hc
    simp only [ProfileManager.create_backup, DirectoryManager.get_profile_dir,
      DirectoryManager.get_platform_dir, hdirs, Bool.not_true, Bool.false_eq_true,
      if_false] at hc
    cases hr : ((fs.mkdir (pm.directory.platformsDir ++ [pyLower platform])).mkdir
        (pm.directory.platformsDir ++ [pyLower platform] ++ [profile_id])).readJsonMeta
        (pm.directory.platformsDir ++ [pyLower platform] ++ [profile_id] ++
          ["metadata.json"]) with
    | error e =>
      rw [hr] at hc
      rcases FS.readJsonMeta_error_cases _ _ _ hr with he | he <;> simp [he] at hc
    | ok md =>
      rw [hr] at hc
      by_cases hb : md.backup_enabled
      · simp only [hb, Bool.not_true, Bool.false_eq_true, if_false] at hc
        cases hs : ((fs.mkdir (pm.directory.platformsDir ++ [pyLower platform])).mkdir
            (pm.directory.platformsDir ++ [pyLower platform] ++ [profile_id])).findFile
            (pm.directory.platformsDir ++ [pyLower platform] ++ [profile_id] ++
              ["session.json"]) with
        | none => rw [hs] at hc; simp at hc
        | some se => rw [hs] at hc; simp at hc
      · simp only [Bool.not_eq_true] at hb
        simp [hb] at hc
  · intro hmeta
    have hr : ((fs.mkdir (pm.directory.platformsDir ++ [pyLower platform])).mkdir
        (pm.directory.platformsDir ++ [pyLower platform] ++ [profile_id])).readJsonMeta
        (pm.directory.platformsDir ++ [pyLower platform] ++ [profile_id] ++
          ["metadata.json"]) =
        Except.error (PmErr.fileNotFound (pm.directory.platformsDir ++
          [pyLower platform] ++ [profile_id] ++ ["metadata.json"])) := by
      unfold FS.readJsonMeta
      rw [FS.findFile_mkdir, FS.findFile_mkdir]
      have hmeta2 : fs.findFile (pm.directory.platformsDir ++ [pyLower platform] ++
          [profile_id] ++ ["metadata.json"]) = none := hmeta
      rw [hmeta2]
    simp only [ProfileManager.create_backup, DirectoryManager.get_profile_dir,
      DirectoryManager.get_platform_dir, hdirs, Bool.not_true, Bool.false_eq_true,
      if_false, hr]

/-- Witness for C10 at a never-created profile in an empty filesystem. -/
theorem C10_backup_missing_branch_unreachable_witness :
    (((ProfileManager.mk ⟨["root"]⟩).create_backup "whatsapp" "A" "20250101_000000"
        ⟨[], []⟩).1 ≠ Except.error PmErr.backupProfileMissing) ∧
    (((ProfileManager.mk ⟨["root"]⟩).create_backup "whatsapp" "A" "20250101_000000"
        ⟨[], []⟩).1 =
      Except.error (PmErr.fileNotFound
        (((ProfileManager.mk ⟨["root"]⟩).directory.get_profile_dir "whatsapp" "A"
          ⟨[], []⟩).1 ++ ["metadata.json"]))) :=
  ⟨(C10_backup_missing_branch_unreachable (ProfileManager.mk ⟨["root"]⟩) "whatsapp" "A"
      "20250101_000000" ⟨[], []⟩).1,
   (C10_backup_missing_branch_unreachable (ProfileManager.mk ⟨["root"]⟩) "whatsapp" "A"
      "20250101_000000" ⟨[], []⟩).2 (by decide)⟩

/-! ### Backup pruning lemmas -/

/-- The `session_*.json` entries of the backups directory of a profile. -/
def backupFiles (fs : FS) (profile_dir : FsPath) : List FileEntry :=
  fs.files.filter (inDirMatching (profile_dir ++ ["backups"]))

theorem insertDesc_perm (e : FileEntry) (l : List FileEntry) :
    List.Perm (insertDesc e l) (e :: l) := by
  induction l with
  | nil => exact List.Perm.refl _
  | cons f rest ih =>
    rw [insertDesc]
    by_cases hc : e.mtime ≤ f.mtime
    · rw [if_pos hc]
      exact (ih.cons f).trans (List.Perm.swap e f rest)
    · rw [if_neg hc]

theorem sortByMtimeDesc_perm (l : List FileEntry) :
    List.Perm (sortByMtimeDesc l) l := by
  induction l with
  | nil => exact List.Perm.refl _
  | cons e rest ih =>
    exact (insertDesc_perm e (rest.foldr insertDesc [])).trans (ih.cons e)

theorem pairwise_insertDesc (e : FileEntry) (l : List FileEntry)
    (h : l.Pairwise (fun a b => b.mtime ≤ a.mtime)) :
    (insertDesc e l).Pairwise (fun a b => b.mtime ≤ a.mtime) := by
  induction l with
  | nil => simp [insertDesc]
  | cons f rest ih =>
    rw [insertDesc]
    rcases List.pairwise_cons.mp h with ⟨hf, hrest⟩
    by_cases hc : e.mtime ≤ f.mtime
    · rw [if_pos hc]
      refine List.pairwise_cons.mpr ⟨?_, ih hrest⟩
      intro b hb
      have hb2 := (insertDesc_perm e rest).mem_iff.mp hb
      rcases List.mem_cons.mp hb2 with hb3 | hb3
      · rw [hb3]; exact hc
      · exact hf b hb3
    · rw [if_neg hc]
      refine List.pairwise_cons.mpr ⟨?_, h⟩
      intro b hb
      rcases List.mem_cons.mp hb with hb | hb
      · rw [hb]; omega
      · have := hf b hb
        omega

theorem sortByMtimeDesc_pairwise (l : List FileEntry) :
    (sortByMtimeDesc l).Pairwise (fun a b => b.mtime ≤ a.mtime) := by
  induction l with
  | nil => simp [sortByMtimeDesc]
  | cons e rest ih => exact pairwise_insertDesc e _ ih

theorem foldl_unlink_files (ds : List FileEntry) (fs : FS) :
    (ds.foldl (fun acc e => acc.unlink e.path) fs).files =
      fs.files.filter (fun x => !(ds.any (fun e => x.path == e.path))) := by
  induction ds generalizing fs with
  | nil => simp
  | cons d ds ih =>
    rw [List.foldl_cons, ih]
    unfold FS.unlink
    rw [List.filter_filter]
    apply List.filter_congr
    intro x hx
    cases hxd : x.path == d.path <;> simp [List.any_cons, hxd]

theorem pathsNodup_writeFile (fs : FS) (p : FsPath) (d : FileData) (t : Nat)
    (h : (fs.files.map FileEntry.path).Nodup) :
    ((fs.writeFile p d t).files.map FileEntry.path).Nodup := by
  unfold FS.writeFile
  simp only [List.map_cons]
  refine List.nodup_cons.mpr ⟨?_, ?_⟩
  · intro hc
    simp only [List.mem_map] at hc
    obtain ⟨e, he, hpe⟩ := hc
    have hne := (List.mem_filter.mp he).2
    rw [hpe] at hne
    simp at hne
  · exact h.sublist ((List.filter_sublist fs.files).map FileEntry.path)

/-- Behaviour of `_prune_backups`: at most `N` glob-matching backup files
remain, every survivor was present before, the number kept is exactly
`min N total`, and every deleted backup is at most as recent as every kept
one. Needs distinct file paths (true of any real directory listing). -/
theorem prune_backups_spec (fs : FS) (pd : FsPath) (N : Nat)
    (hnodup : (fs.files.map FileEntry.path).Nodup) :
    (backupFiles (ProfileManager.prune_backups fs pd N) pd).length =
      min N (backupFiles fs pd).length ∧
    (∀ e ∈ backupFiles (ProfileManager.prune_backups fs pd N) pd,
      e ∈ backupFiles fs pd) ∧
    (∀ d ∈ backupFiles fs pd, d ∉ backupFiles (ProfileManager.prune_backups fs pd N) pd →
      ∀ k ∈ backupFiles (ProfileManager.prune_backups fs pd N) pd, d.mtime ≤ k.mtime) := by
  have hperm : List.Perm (sortByMtimeDesc (backupFiles fs pd)) (backupFiles fs pd) :=
    sortByMtimeDesc_perm _
  have hpw := sortByMtimeDesc_pairwise (backupFiles fs pd)
  have hpnodup : ((sortByMtimeDesc (backupFiles fs pd)).map FileEntry.path).Nodup := by
    refine (List.Perm.nodup_iff (hperm.map FileEntry.path)).mpr ?_
    exact hnodup.sublist ((List.filter_sublist fs.files).map FileEntry.path)
  have hfiles : (ProfileManager.prune_backups fs pd N).files =
      fs.files.filter (fun x =>
        !(((sortByMtimeDesc (backupFiles fs pd)).drop N).any
          (fun e => x.path == e.path))) := by
    unfold ProfileManager.prune_backups
    exact foldl_unlink_files _ fs
  have hbf : backupFiles (ProfileManager.prune_backups fs pd N) pd =
      (backupFiles fs pd).filter (fun x =>
        !(((sortByMtimeDesc (backupFiles fs pd)).drop N).any
          (fun e => x.path == e.path))) := by
    show (ProfileManager.prune_backups fs pd N).files.filter
        (inDirMatching (pd ++ ["backups"])) = _
    rw [hfiles, List.filter_filter]
    show _ = (fs.files.filter (inDirMatching (pd ++ ["backups"]))).filter _
    rw [List.filter_filter]
    apply List.filter_congr
    intro x hx
    rw [Bool.and_comm]
  have hdropmem : ∀ x ∈ (sortByMtimeDesc (backupFiles fs pd)).drop N,
      (!(((sortByMtimeDesc (backupFiles fs pd)).drop N).any
        (fun e => x.path == e.path))) = false := by
    intro x hx
    have : ((sortByMtimeDesc (backupFiles fs pd)).drop N).any
        (fun e => x.path == e.path) = true :=
      List.any_eq_true.mpr ⟨x, hx, by simp⟩
    rw [this]
    rfl
  have hkeepmem : ∀ x ∈ (sortByMtimeDesc (backupFiles fs pd)).take N,
      (!(((sortByMtimeDesc (backupFiles fs pd)).drop N).any
        (fun e => x.path == e.path))) = true := by
    intro x hx
    rw [Bool.not_eq_true']
    by_contra hc
    simp only [Bool.not_eq_false, List.any_eq_true] at hc
    obtain ⟨e, he, hpe⟩ := hc
    have hxy : x.path = e.path := by simpa using hpe
    have hsplit : (sortByMtimeDesc (backupFiles fs pd)).map FileEntry.path =
        ((sortByMtimeDesc (backupFiles fs pd)).take N).map FileEntry.path ++
        ((sortByMtimeDesc (backupFiles fs pd)).drop N).map FileEntry.path := by
      rw [← List.map_append, List.take_append_drop]
    rw [hsplit] at hpnodup
    rcases List.nodup_append.mp hpnodup with ⟨_, _, hdisj⟩
    exact hdisj (List.mem_map_of_mem FileEntry.path hx)
      (by rw [hxy]; exact List.mem_map_of_mem FileEntry.path he)
  have hkept : List.Perm (backupFiles (ProfileManager.prune_backups fs pd N) pd)
      ((sortByMtimeDesc (backupFiles fs pd)).take N) := by
    rw [hbf]
    have h1 : List.Perm ((backupFiles fs pd).filter (fun x =>
        !(((sortByMtimeDesc (backupFiles fs pd)).drop N).any
          (fun e => x.path == e.path))))
        ((sortByMtimeDesc (backupFiles fs pd)).filter (fun x =>
        !(((sortByMtimeDesc (backupFiles fs pd)).drop N).any
          (fun e => x.path == e.path)))) :=
      (hperm.filter _).symm
    refine h1.trans ?_
    have h2 : (sortByMtimeDesc (backupFiles fs pd)).filter (fun x =>
        !(((sortByMtimeDesc (backupFiles fs pd)).drop N).any
          (fun e => x.path == e.path))) =
        ((sortByMtimeDesc (backupFiles fs pd)).take N).filter (fun x =>
        !(((sortByMtimeDesc (backupFiles fs pd)).drop N).any
          (fun e => x.path == e.path))) ++
        ((sortByMtimeDesc (backupFiles fs pd)).drop N).filter (fun x =>
        !(((sortByMtimeDesc (backupFiles fs pd)).drop N).any
          (fun e => x.path == e.path))) := by
      rw [← List.filter_append, List.take_append_drop]
    have hnil : ((sortByMtimeDesc (backupFiles fs pd)).drop N).filter (fun x =>
        !(((sortByMtimeDesc (backupFiles fs pd)).drop N).any
          (fun e => x.path == e.path))) = [] := by
      refine List.filter_eq_nil_iff.mpr ?_
      intro x hx
      rw [hdropmem x hx]
      exact Bool.false_ne_true
    rw [h2, List.filter_eq_self.mpr hkeepmem, hnil, List.append_nil]
  refine ⟨?_, ?_, ?_⟩
  · rw [hkept.length_eq, List.length_take, hperm.length_eq]
  · intro e he
    have := hkept.mem_iff.mp he
    exact hperm.mem_iff.mp (List.mem_of_mem_take this)
  · intro d hd hdnot k hk
    have hdsorted : d ∈ sortByMtimeDesc (backupFiles fs pd) := hperm.mem_iff.mpr hd
    have hksorted : k ∈ (sortByMtimeDesc (backupFiles fs pd)).take N :=
      hkept.mem_iff.mp hk
    have hddrop : d ∈ (sortByMtimeDesc (backupFiles fs pd)).drop N := by
      rcases List.mem_append.mp
        (by rw [List.take_append_drop]; exact hdsorted :
          d ∈ (sortByMtimeDesc (backupFiles fs pd)).take N ++
            (sortByMtimeDesc (backupFiles fs pd)).drop N) with hin | hin
      · exact absurd (hkept.mem_iff.mpr hin) hdnot
      · exact hin
    have hpw2 := hpw
    rw [← List.take_append_drop N (sortByMtimeDesc (backupFiles fs pd))] at hpw2
    rcases List.pairwise_append.mp hpw2 with ⟨_, _, hcross⟩
    exact hcross k hksorted d hddrop

/-- Claim C8: for an existing profile, backup is a no-op when backups are
disabled in metadata (no file created, nothing deleted); when enabled it
copies the session file into the backups directory and prunes, after which
at most max_backups glob-matching backup files remain, they all existed
right after the copy, exactly min(max_backups, total) are kept, and every
deleted backup is no more recently modified than every kept one. -/
theorem C8_backup_prune_bound (pm : ProfileManager) (platform profile_id ts : String)
    (fs : FS) (m : Metadata) (se : FileEntry)
    (hplat : fs.dirExists (pm.directory.platformsDir ++ [pyLower platform]) = true)
    (hprof : fs.dirExists (pm.directory.platformsDir ++ [pyLower platform] ++
      [profile_id]) = true)
    (hread : fs.readJsonMeta (pm.directory.platformsDir ++ [pyLower platform] ++
      [profile_id] ++ ["metadata.json"]) = Except.ok m)
    (hsess : fs.findFile (pm.directory.platformsDir ++ [pyLower platform] ++
      [profile_id] ++ ["session.json"]) = some se)
    (hnodup : (fs.files.map FileEntry.path).Nodup) :
    (m.backup_enabled = false →
      pm.create_backup platform profile_id ts fs = (Except.ok (), fs)) ∧
    (m.backup_enabled = true →
      pm.create_backup platform profile_id ts fs =
        (Except.ok (), ProfileManager.prune_backups
          (fs.writeFile (pm.directory.platformsDir ++ [pyLower platform] ++ [profile_id] ++
            ["backups", "session_" ++ ts ++ ".json"]) se.data se.mtime)
          (pm.directory.platformsDir ++ [pyLower platform] ++ [profile_id])
          m.max_backups) ∧
      (backupFiles (pm.create_backup platform profile_id ts fs).2
          (pm.directory.platformsDir ++ [pyLower platform] ++ [profile_id])).length =
        min m.max_backups
          (backupFiles (fs.writeFile (pm.directory.platformsDir ++ [pyLower platform] ++
              [profile_id] ++ ["backups", "session_" ++ ts ++ ".json"]) se.data se.mtime)
            (pm.directory.platformsDir ++ [pyLower platform] ++ [profile_id])).length ∧
      (∀ e ∈ backupFiles (pm.create_backup platform profile_id ts fs).2
          (pm.directory.platformsDir ++ [pyLower platform] ++ [profile_id]),
        e ∈ backupFiles (fs.writeFile (pm.directory.platformsDir ++ [pyLower platform] ++
            [profile_id] ++ ["backups", "session_" ++ ts ++ ".json"]) se.data se.mtime)
          (pm.directory.platformsDir ++ [pyLower platform] ++ [profile_id])) ∧
      (∀ d ∈ backupFiles (fs.writeFile (pm.directory.platformsDir ++ [pyLower platform] ++
            [profile_id] ++ ["backups", "session_" ++ ts ++ ".json"]) se.data se.mtime)
          (pm.directory.platformsDir ++ [pyLower platform] ++ [profile_id]),
        d ∉ backupFiles (pm.create_backup platform profile_id ts fs).2
          (pm.directory.platformsDir ++ [pyLower platform] ++ [profile_id]) →
        ∀ k ∈ backupFiles (pm.create_backup platform profile_id ts fs).2
          (pm.directory.platformsDir ++ [pyLower platform] ++ [profile_id]),
          d.mtime ≤ k.mtime)) := by
  have h1 : fs.mkdir (pm.directory.platformsDir ++ [pyLower platform]) = fs :=
    FS.mkdir_of_dirExists _ _ hplat
  have h2 : fs.mkdir (pm.directory.platformsDir ++ [pyLower platform] ++ [profile_id])
      = fs := FS.mkdir_of_dirExists _ _ hprof
  have hpe : fs.pathExists (pm.directory.platformsDir ++ [pyLower platform] ++
      [profile_id]) = true := by
    unfold FS.pathExists
    rw [hprof]
    rfl
  constructor
  · intro hb
    simp only [ProfileManager.create_backup, DirectoryManager.get_profile_dir,
      DirectoryManager.get_platform_dir, h1, h2, hpe, Bool.not_true, Bool.false_eq_true,
      if_false, hread, hb, Bool.not_false, if_true]
  · intro hb
    have heq : pm.create_backup platform profile_id ts fs =
        (Except.ok (), ProfileManager.prune_backups
          (fs.writeFile (pm.directory.platformsDir ++ [pyLower platform] ++ [profile_id] ++
            ["backups", "session_" ++ ts ++ ".json"]) se.data se.mtime)
          (pm.directory.platformsDir ++ [pyLower platform] ++ [profile_id])
          m.max_backups) := by
      simp only [ProfileManager.create_backup, DirectoryManager.get_profile_dir,
        DirectoryManager.get_platform_dir, h1, h2, hpe, Bool.not_true, Bool.false_eq_true,
        if_false, hread, hb, hsess]
    refine ⟨heq, ?_, ?_, ?_⟩
    all_goals rw [heq]
    · exact (prune_backups_spec _ _ _ (pathsNodup_writeFile fs _ _ _ hnodup)).1
    · exact (prune_backups_spec _ _ _ (pathsNodup_writeFile fs _ _ _ hnodup)).2.1
    · exact (prune_backups_spec _ _ _ (pathsNodup_writeFile fs _ _ _ hnodup)).2.2

/-- Metadata of a profile with backups enabled and max_backups = 3. -/
def mBackup : Metadata :=
  { mActive with is_active := false, last_active_pid := none, max_backups := 3 }

/-- Metadata of a profile with backups disabled. -/
def mBackupOff : Metadata := { mBackup with backup_enabled := false }

/-- A concrete session file entry. -/
def sessionEntry : FileEntry :=
  ⟨["root", "whatsapp", "A", "session.json"], FileData.text "\x7b\x7d", 5⟩

/-- A profile on disk with backups enabled. -/
def fsBackup : FS :=
  { dirs := [["root", "whatsapp"], ["root", "whatsapp", "A"],
      ["root", "whatsapp", "A", "backups"]],
    files := [⟨["root", "whatsapp", "A", "metadata.json"], FileData.jsonMeta mBackup, 0⟩,
      sessionEntry] }

/-- The same profile with backups disabled. -/
def fsBackupOff : FS :=
  { dirs := [["root", "whatsapp"], ["root", "whatsapp", "A"],
      ["root", "whatsapp", "A", "backups"]],
    files := [⟨["root", "whatsapp", "A", "metadata.json"], FileData.jsonMeta mBackupOff, 0⟩,
      sessionEntry] }

/-- Witness for C8: backup on a disabled profile is a no-op; backup on an
enabled profile copies and prunes, keeping at most max_backups files. -/
theorem C8_backup_prune_bound_witness :
    ((ProfileManager.mk ⟨["root"]⟩).create_backup "whatsapp" "A" "20250101_000000"
      fsBackupOff = (Except.ok (), fsBackupOff)) ∧
    ((ProfileManager.mk ⟨["root"]⟩).create_backup "whatsapp" "A" "20250101_000000"
      fsBackup =
      (Except.ok (), ProfileManager.prune_backups
        (fsBackup.writeFile (["root"] ++ [pyLower "whatsapp"] ++ ["A"] ++
          ["backups", "session_" ++ "20250101_000000" ++ ".json"])
          sessionEntry.data sessionEntry.mtime)
        (["root"] ++ [pyLower "whatsapp"] ++ ["A"]) mBackup.max_backups)) ∧
    (backupFiles ((ProfileManager.mk ⟨["root"]⟩).create_backup "whatsapp" "A"
        "20250101_000000" fsBackup).2 (["root"] ++ [pyLower "whatsapp"] ++ ["A"])).length =
      min mBackup.max_backups
        (backupFiles (fsBackup.writeFile (["root"] ++ [pyLower "whatsapp"] ++ ["A"] ++
            ["backups", "session_" ++ "20250101_000000" ++ ".json"])
            sessionEntry.data sessionEntry.mtime)
          (["root"] ++ [pyLower "whatsapp"] ++ ["A"])).length :=
  ⟨(C8_backup_prune_bound (ProfileManager.mk ⟨["root"]⟩) "whatsapp" "A" "20250101_000000"
      fsBackupOff mBackupOff sessionEntry (by decide) (by decide) rfl rfl (by decide)).1
      rfl,
   ((C8_backup_prune_bound (ProfileManager.mk ⟨["root"]⟩) "whatsapp" "A" "20250101_000000"
      fsBackup mBackup sessionEntry (by decide) (by decide) rfl rfl (by decide)).2
      rfl).1,
   ((C8_backup_prune_bound (ProfileManager.mk ⟨["root"]⟩) "whatsapp" "A" "20250101_000000"
      fsBackup mBackup sessionEntry (by decide) (by decide) rfl rfl (by decide)).2
      rfl).2.1⟩

end Tweakio
